import Mathlib

/-!
# Verification of `util` (memo-off/go-util, `util/util.go`)

A shallow embedding of the helper functions of package `util` together with the
parts of the Go runtime and standard library they call.

* Go `string` values are Lean `String`s; the functions below inspect them through
  their character list.
* Machine integers (`int`, `int64`, `uint64`) are `Int`/`Nat` values wrapped
  explicitly at the width of the type.
* A function that may panic returns `Except Any α`: the error branch carries the
  panic value.
* The diagnostic stream written by package `log` is an explicit list of entries.
* The file helpers are written against a record of operating-system calls, so
  that a call can be made to fail; an in-memory filesystem instantiates it.
-/

namespace Util

/-! ## Go runtime values -/

/-- Non-nil values of interface type `error`, recorded by dynamic type and
content. `errorString` is what `errors.New` returns, `numError` is
`*strconv.NumError`, `typeAssertionError` is the `*runtime.TypeAssertionError`
raised by a failed single-value type assertion `x.(error)` on a value of dynamic
type `concrete`, `pathError` is `*os.PathError`; these four are pointers, so two
of them with the same content may still be different values. `runtimeError` is
the string type `runtime.errorString` of run-time panics. `uncomparable` is an
error whose dynamic type `typ` is not comparable (a slice, map or function type
with an `Error` method, or a struct holding one), with the text `msg`. -/
inductive GoError where
  | errorString (s : String)
  | numError (fn : String) (num : String) (err : GoError)
  | typeAssertionError (concrete : String)
  | pathError (op : String) (path : String) (err : GoError)
  | runtimeError (msg : String)
  | uncomparable (typ : String) (msg : String)
deriving DecidableEq, Repr

/-- A value of interface type `error`: `none` is `nil`. -/
abbrev error := Option GoError

/-- Go `errors.New`. -/
def errorsNew (text : String) : GoError := GoError.errorString text

/-- The `Error()` method. For `numError` the quoting of `num` done by
`strconv.Quote` is left out. -/
def GoError.Error : GoError → String
  | GoError.errorString s => s
  | GoError.numError fn num err => "strconv." ++ fn ++ ": parsing " ++ num ++ ": " ++ err.Error
  | GoError.typeAssertionError concrete =>
      "interface conversion: " ++ concrete ++ " is not error: missing method Error"
  | GoError.pathError op path err => op ++ " " ++ path ++ ": " ++ err.Error
  | GoError.runtimeError msg => "runtime error: " ++ msg
  | GoError.uncomparable _ msg => msg

/-- A value of the empty interface `interface{}`, as passed to `panic` and
returned by `recover`: `nil`, a value whose dynamic type implements `error`, or
a value of dynamic type `typ` that does not implement `error` (`repr` is how
it prints). -/
inductive Any where
  | nil
  | error (e : GoError)
  | other (typ : String) (repr : String)
deriving DecidableEq, Repr

/-- How Go compares the values of a dynamic type: pointers by identity, other
comparable types by value, and the remaining types not at all. -/
inductive TypeKind where
  | pointer
  | value
  | uncomparable
deriving DecidableEq, Repr

/-- The dynamic type of an error value. -/
def GoError.dynType : GoError → String
  | GoError.errorString _ => "*errors.errorString"
  | GoError.numError _ _ _ => "*strconv.NumError"
  | GoError.typeAssertionError _ => "*runtime.TypeAssertionError"
  | GoError.pathError _ _ _ => "*fs.PathError"
  | GoError.runtimeError _ => "runtime.errorString"
  | GoError.uncomparable typ _ => typ

/-- How values of the dynamic type of an error are compared. -/
def GoError.kind : GoError → TypeKind
  | GoError.errorString _ => TypeKind.pointer
  | GoError.numError _ _ _ => TypeKind.pointer
  | GoError.typeAssertionError _ => TypeKind.pointer
  | GoError.pathError _ _ _ => TypeKind.pointer
  | GoError.runtimeError _ => TypeKind.value
  | GoError.uncomparable _ _ => TypeKind.uncomparable

/-- Go `a != b` on two non-nil interface values. Values of different dynamic
types differ. With identical dynamic types: an uncomparable type makes the
comparison panic with a run-time error, values of a value type differ when
their contents differ, and pointers differ unless they are the same pointer.
Since `GoError` does not record addresses, `same` says whether `a` and `b` are
the same pointer; it matters only for two pointers of equal content (two
results of `errors.New` with the same text are different pointers, `same` is
then `false`). -/
def ifaceNe (same : Bool) (a b : GoError) : Except Any Bool :=
  if a.dynType ≠ b.dynType then Except.ok true
  else
    match a.kind with
    | TypeKind.uncomparable =>
      Except.error (Any.error (GoError.runtimeError
        ("comparing uncomparable type " ++ a.dynType)))
    | TypeKind.value => Except.ok (decide (a ≠ b))
    | TypeKind.pointer => Except.ok (!(same && decide (a = b)))

/-- Go `a != b` on two values of interface type `error`: `nil` differs from
every non-nil value and the comparison with `nil` never panics. -/
def errorNe (same : Bool) (a b : error) : Except Any Bool :=
  match a, b with
  | none, none => Except.ok false
  | none, some _ => Except.ok true
  | some _, none => Except.ok true
  | some x, some y => ifaceNe same x y

/-- One call of package `log`, recorded with its operands. -/
inductive LogEntry where
  | Println (args : List Any)
  | Printf (format : String) (args : List Any)
deriving DecidableEq, Repr

/-- Conversion to `int64`: two's complement wrap-around to 64 bits. -/
def wrapInt64 (x : Int) : Int :=
  (x + 9223372036854775808) % 18446744073709551616 - 9223372036854775808

/-- Conversion to `uint64`. -/
def wrapUint64 (x : Int) : Int := x % 18446744073709551616

/-! ## IndexedReadCloser -/

/-- The struct `IndexedReadCloser`. `ρ` is the state of the underlying
`io.Reader` held in `R`, `κ` the state of the `io.Closer` held in `C`. -/
structure IndexedReadCloser (ρ κ : Type) where
  R : ρ
  C : κ
  Idx : Int
  Len : Int

/-- The `Read` method of an underlying reader with state `ρ`: given the reader
and `len(buf)` it returns `(n, err)` and the reader afterwards. The bytes
written to `buf` are not modelled. -/
abbrev ReaderRead (ρ : Type) := ρ → Nat → (Int × error) × ρ

/-- The `Close` method of an underlying closer with state `κ`. -/
abbrev CloserClose (κ : Type) := κ → error × κ

/-- Method `(*IndexedReadCloser).Read`: `n, err = r.R.Read(buf); r.Idx += int64(n)`. -/
def IndexedReadCloser.Read {ρ κ : Type} (rd : ReaderRead ρ) (r : IndexedReadCloser ρ κ)
    (buf : Nat) : (Int × error) × IndexedReadCloser ρ κ :=
  let res := rd r.R buf
  (res.1, { r with R := res.2, Idx := wrapInt64 (r.Idx + wrapInt64 res.1.1) })

/-- Method `(*IndexedReadCloser).Close`. -/
def IndexedReadCloser.Close {ρ κ : Type} (cl : CloserClose κ) (r : IndexedReadCloser ρ κ) :
    error × IndexedReadCloser ρ κ :=
  let res := cl r.C
  (res.1, { r with C := res.2 })

/-- Method `(*IndexedReadCloser).Rest`. -/
def IndexedReadCloser.Rest {ρ κ : Type} (r : IndexedReadCloser ρ κ) : Int :=
  wrapInt64 (r.Len - r.Idx)

/-- Method `(*IndexedReadCloser).EOF`. -/
def IndexedReadCloser.EOF {ρ κ : Type} (r : IndexedReadCloser ρ κ) : Bool :=
  decide (r.Idx ≥ r.Len)

/-- A finite sequence of `Read` calls, one per buffer length in `bufs`; returns
the results `(n_i, err_i)` in call order and the wrapper afterwards. -/
def IndexedReadCloser.readMany {ρ κ : Type} (rd : ReaderRead ρ) :
    IndexedReadCloser ρ κ → List Nat → List (Int × error) × IndexedReadCloser ρ κ
  | r, [] => ([], r)
  | r, b :: bs =>
    let step := IndexedReadCloser.Read rd r b
    let rest := IndexedReadCloser.readMany rd step.2 bs
    (step.1 :: rest.1, rest.2)

/-- Total of the byte counts returned by a sequence of reads. -/
def totalRead (results : List (Int × error)) : Int :=
  (results.map (fun p => p.1)).sum

/-- A scripted reader: each `Read` pops the next prepared result; an exhausted
script yields `(0, EOF)`. -/
def scriptedRead : ReaderRead (List (Int × error))
  | [], _ => ((0, some (errorsNew "EOF")), [])
  | p :: ps, _ => (p, ps)

/-! ## Process state, panics and the diagnostic log -/

/-- The part of the process a helper can touch besides its arguments: `world`
is whatever the caller-supplied operations act on (open files, counters),
`log` is the output of package `log`, oldest entry first. -/
structure Proc (W : Type) where
  world : W
  log : List LogEntry

/-- The type `Errable` (`func() error`): a call acts on the world and either
panics or returns an `error`. It is assumed to write neither to the log nor to
the error slot a helper was given. -/
abbrev Errable (W : Type) := W → Except Any error × W

/-- A string operand of a `log` call. -/
def Any.str (s : String) : Any := Any.other "string" s

/-- Function `PE`: `if err != nil { panic(err) }`. -/
def PE {W : Type} (err : error) (s : Proc W) : Except Any Unit × Proc W :=
  match err with
  | some e => (Except.error (Any.error e), s)
  | none => (Except.ok (), s)

/-- Function `PEF`: `PE(errable())`. A panic of `errable` propagates. -/
def PEF {W : Type} (errable : Errable W) (s : Proc W) : Except Any Unit × Proc W :=
  match errable s.world with
  | (Except.error p, w) => (Except.error p, { s with world := w })
  | (Except.ok e, w) => PE e { s with world := w }

/-- Function `PanicCatcher`, run as a deferred call. `r` is what `recover()`
returns (`Any.nil` when no panic is in flight), `stack` is what `debug.Stack()`
returns, `err` is the value of `*err` on entry, and `same` says whether `*err`
and the recovered error are the same pointer (see `ifaceNe`). The result is how
the call ends (`Except.error p`: it panics with `p`), the value of `*err` on
exit and the process state. The type assertion `r.(error)` panics on a value
that does not implement `error`, and the comparison `*err != e` panics when both
values have the same uncomparable dynamic type. -/
def PanicCatcher {W : Type} (stack : String) (same : Bool) (r : Any) (err : error)
    (s : Proc W) : Except Any Unit × error × Proc W :=
  match r with
  | Any.nil => (Except.ok (), err, s)
  | Any.error e =>
    let s1 : Proc W := { s with log := s.log ++
      [LogEntry.Printf "Error: %s\nstacktrace from panic: %s\n" [r, Any.other "[]byte" stack]] }
    match errorNe same err (some e) with
    | Except.error v => (Except.error v, err, s1)
    | Except.ok true =>
      match err with
      | some cur =>
        (Except.ok (), err, { s1 with log := s1.log ++
          [LogEntry.Println [Any.str "Error be shadowed:", Any.error e, Any.str "For:",
            Any.error cur]] })
      | none => (Except.ok (), some e, s1)
    | Except.ok false => (Except.ok (), err, s1)
  | Any.other typ _ =>
    let s1 : Proc W := { s with log := s.log ++
      [LogEntry.Printf "Error: %s\nstacktrace from panic: %s\n" [r, Any.other "[]byte" stack]] }
    (Except.error (Any.error (GoError.typeAssertionError typ)), err, s1)

/-- Function `Assert`. -/
def Assert {W : Type} (cond : Bool) (why : String) (s : Proc W) : Except Any Unit × Proc W :=
  if !cond then
    (Except.error (Any.error (errorsNew ("Assertion failed: \n" ++ why))), s)
  else (Except.ok (), s)

/-- Function `CleanUp`. `err` is the value of `*err` on entry; the result is how
the call ends, the value of `*err` on exit and the process state. -/
def CleanUp {W : Type} (errable : Errable W) (err : error) (s : Proc W) :
    Except Any Unit × error × Proc W :=
  match errable s.world with
  | (Except.error p, w) => (Except.error p, err, { s with world := w })
  | (Except.ok e, w) =>
    match e with
    | some ev =>
      match err with
      | some cur =>
        (Except.ok (), err, { world := w, log := s.log ++
          [LogEntry.Println [Any.str "Error be shadowed during cleanup:", Any.error ev,
            Any.str "For:", Any.error cur]] })
      | none => (Except.ok (), e, { s with world := w })
    | none => (Except.ok (), err, { s with world := w })

/-! ## Standard library: `strings.Split`, `strconv.Atoi`, `time.Date` -/

/-- Splitting a character list at every occurrence of `sep`. -/
def splitChars (sep : Char) : List Char → List (List Char)
  | [] => [[]]
  | c :: cs =>
    if c = sep then [] :: splitChars sep cs
    else
      match splitChars sep cs with
      | [] => [[c]]
      | seg :: rest => (c :: seg) :: rest

/-- Go `strings.Split(s, sep)` for a separator `sep` of one ASCII character:
the substrings between the separators, `[s]` when `sep` does not occur. -/
def stringsSplit (s : String) (sep : Char) : List String :=
  (splitChars sep s.data).map String.mk

/-- Value `strconv.ErrSyntax`. -/
def strconvErrSyntax : GoError := errorsNew "invalid syntax"

/-- Value `strconv.ErrRange`. -/
def strconvErrRange : GoError := errorsNew "value out of range"

/-- The digit loop of `strconv.ParseUint(s, 10, 64)` with accumulator `n`:
a character that is not a decimal digit is a syntax error (value 0), an
overflow of `uint64` a range error (value `1<<64 - 1`); `none` is success. -/
def parseUintLoop : List Char → Nat → Nat × Option GoError
  | [], n => (n, none)
  | c :: cs, n =>
    if '0' ≤ c ∧ c ≤ '9' then
      if n ≥ 18446744073709551615 / 10 + 1 then (18446744073709551615, some strconvErrRange)
      else if n * 10 + (c.toNat - 48) > 18446744073709551615 then
        (18446744073709551615, some strconvErrRange)
      else parseUintLoop cs (n * 10 + (c.toNat - 48))
    else (0, some strconvErrSyntax)

/-- Go `strconv.ParseUint(s, 10, 64)` on the characters of `s`. -/
def ParseUint (s : List Char) : Nat × Option GoError :=
  match s with
  | [] => (0, some strconvErrSyntax)
  | _ => parseUintLoop s 0

/-- Go `strconv.Atoi(s)` with 64-bit `int`, that is `ParseInt(s, 10, 0)` with
the error named after `Atoi`: an optional sign, then decimal digits. -/
def Atoi (s : String) : Int × error :=
  match s.data with
  | [] => (0, some (GoError.numError "Atoi" s strconvErrSyntax))
  | c :: cs =>
    let neg : Bool := c = '-'
    let body : List Char := if c = '+' ∨ c = '-' then cs else c :: cs
    let un := ParseUint body
    if un.2 = some strconvErrSyntax then (0, some (GoError.numError "Atoi" s strconvErrSyntax))
    else if !neg ∧ un.1 ≥ 9223372036854775808 then
      (9223372036854775807, some (GoError.numError "Atoi" s strconvErrRange))
    else if neg ∧ un.1 > 9223372036854775808 then
      (-9223372036854775808, some (GoError.numError "Atoi" s strconvErrRange))
    else if neg then (wrapInt64 (-(wrapInt64 (un.1 : Int))), none)
    else (wrapInt64 (un.1 : Int), none)

/-- Go `time.Time` for a time without monotonic clock reading and with zero
nanoseconds in location UTC: `ext` is the number of seconds since January 1,
year 1 00:00:00 UTC. -/
structure Time where
  ext : Int
deriving DecidableEq, Repr

/-- The zero value of `time.Time`. -/
def zeroTime : Time := { ext := 0 }

/-- Constant `unixToInternal` of package `time`. -/
def unixToInternal : Int := (1969 * 365 + 1969 / 4 - 1969 / 100 + 1969 / 400) * 86400

/-- Constant `internalToUnix` of package `time`. -/
def internalToUnix : Int := -unixToInternal

/-- Constant `absoluteZeroYear` of package `time`. -/
def absoluteZeroYear : Int := -292277022399

/-- Constant `absoluteToInternal` of package `time`:
`(absoluteZeroYear - 1) * 365.2425 * 86400`. -/
def absoluteToInternal : Int := (absoluteZeroYear - 1) * 31556952

/-- Method `Time.Unix`. -/
def Time.Unix (t : Time) : Int := wrapInt64 (t.ext + internalToUnix)

/-- Function `norm` of package `time`: `nhi, nlo` with
`hi * base + lo == nhi * base + nlo` and `0 <= nlo < base`. -/
def norm (hi lo base : Int) : Int × Int :=
  let p1 : Int × Int :=
    if lo < 0 then
      let n := wrapInt64 (Int.tdiv (wrapInt64 (wrapInt64 (-lo) - 1)) base + 1)
      (wrapInt64 (hi - n), wrapInt64 (lo + wrapInt64 (n * base)))
    else (hi, lo)
  if p1.2 ≥ base then
    let n := Int.tdiv p1.2 base
    (wrapInt64 (p1.1 + n), wrapInt64 (p1.2 - wrapInt64 (n * base)))
  else p1

/-- Function `isLeap` of package `time`. -/
def isLeap (year : Int) : Bool :=
  year % 4 = 0 ∧ (year % 100 ≠ 0 ∨ year % 400 = 0)

/-- Table `daysBefore` of package `time`: days before the start of each month
in a non-leap year. -/
def daysBefore : List Int :=
  [0, 31, 31 + 28, 31 + 28 + 31, 31 + 28 + 31 + 30, 31 + 28 + 31 + 30 + 31,
   31 + 28 + 31 + 30 + 31 + 30, 31 + 28 + 31 + 30 + 31 + 30 + 31,
   31 + 28 + 31 + 30 + 31 + 30 + 31 + 31, 31 + 28 + 31 + 30 + 31 + 30 + 31 + 31 + 30,
   31 + 28 + 31 + 30 + 31 + 30 + 31 + 31 + 30 + 31,
   31 + 28 + 31 + 30 + 31 + 30 + 31 + 31 + 30 + 31 + 30,
   31 + 28 + 31 + 30 + 31 + 30 + 31 + 31 + 30 + 31 + 30 + 31]

/-- Function `daysSinceEpoch` of package `time`: days (as `uint64`) from the
start of `absoluteZeroYear` to the start of `year`. -/
def daysSinceEpoch (year : Int) : Int :=
  let y := wrapUint64 (wrapInt64 (year - absoluteZeroYear))
  let n400 := y / 400
  let y1 := y - 400 * n400
  let n100 := y1 / 100
  let y2 := y1 - 100 * n100
  let n4 := y2 / 4
  let y3 := y2 - 4 * n4
  wrapUint64 (146097 * n400 + 36524 * n100 + 1461 * n4 + 365 * y3)

/-- Go `time.Date(year, month, day, hour, min, sec, nsec, time.UTC)`, following
the implementation of package `time` built on `norm`, `daysSinceEpoch` and
`daysBefore`: the fields are normalised, then the seconds are counted from the
absolute epoch in `uint64` arithmetic. -/
def Date (year month day hour min sec nsec : Int) : Time :=
  let ym := norm year (wrapInt64 (month - 1)) 12
  let year := ym.1
  let month := ym.2 + 1
  let sn := norm sec nsec 1000000000
  let ms := norm min sn.1 60
  let hm := norm hour ms.1 60
  let dh := norm day hm.1 24
  let d0 := daysSinceEpoch year + daysBefore.getD (month - 1).toNat 0
  let d1 := if isLeap year ∧ month ≥ 3 then d0 + 1 else d0
  let d := wrapUint64 (d1 + wrapUint64 (dh.1 - 1))
  let abs := wrapUint64 (d * 86400 + wrapUint64 (dh.2 * 3600 + hm.2 * 60 + ms.2))
  let unix := wrapInt64 (wrapInt64 abs + (absoluteToInternal + internalToUnix))
  { ext := wrapInt64 (unix + unixToInternal) }

/-! ## Date strings -/

/-- Function `DatestrToTime`. Each `:=` assigns the named result `err` again,
so only the error of the last `strconv.Atoi` call reaches the test. -/
def DatestrToTime (s : String) : Time × error :=
  let err : error := some (errorsNew "Invalid datestr format")
  let segs := stringsSplit s '/'
  if segs.length ≠ 3 then (zeroTime, err)
  else
    let y := Atoi (segs.getD 0 "")
    let m := Atoi (segs.getD 1 "")
    let d := Atoi (segs.getD 2 "")
    let err := d.2
    if err ≠ none then (zeroTime, err)
    else (Date y.1 m.1 d.1 0 0 0 0, err)

/-- Function `DatestrToInt`. -/
def DatestrToInt (s : String) : Int × error :=
  let r := DatestrToTime s
  (r.1.Unix, r.2)

/-- An errable that counts its invocations in the world and returns `e`. -/
def countingErrable (e : error) : Errable Nat := fun n => (Except.ok e, n + 1)

/-! ## Calendar dates as the specification words them -/

/-- Value of a list of decimal digits, most significant first. -/
def digitsValue (cs : List Char) : Nat :=
  cs.foldl (fun acc c => 10 * acc + (c.toNat - 48)) 0

/-- A non-empty list of decimal digits. -/
def isDigits (cs : List Char) : Bool := !cs.isEmpty && cs.all Char.isDigit

/-- The integer a segment denotes when it is a decimal integer: an optional
sign followed by one or more decimal digits (leading zeros allowed). -/
def decimalValue (s : String) : Option Int :=
  match s.data with
  | [] => none
  | c :: cs =>
    if c = '-' then (if isDigits cs then some (-(digitsValue cs : Int)) else none)
    else if c = '+' then (if isDigits cs then some (digitsValue cs : Int) else none)
    else if isDigits (c :: cs) then some (digitsValue (c :: cs) : Int) else none

/-- Gregorian leap year rule. -/
def isLeapYear (y : Int) : Bool :=
  y % 4 = 0 ∧ (y % 100 ≠ 0 ∨ y % 400 = 0)

/-- Number of days of year `y`. -/
def daysInYear (y : Int) : Int := if isLeapYear y then 366 else 365

/-- Number of days of month `m` of year `y`. -/
def daysInMonth (y m : Int) : Int :=
  if m = 2 then (if isLeapYear y then 29 else 28)
  else if m = 4 ∨ m = 6 ∨ m = 9 ∨ m = 11 then 30
  else 31

/-- A valid calendar date: month 1..12 and a day that exists in that month. -/
def validDate (y m d : Int) : Prop :=
  1 ≤ m ∧ m ≤ 12 ∧ 1 ≤ d ∧ d ≤ daysInMonth y m

/-- Days in the `n` years `start, start + 1, ..., start + n - 1`. -/
def sumYears (start : Int) : Nat → Int
  | 0 => 0
  | n + 1 => sumYears start n + daysInYear (start + n)

/-- Days in the first `n` months of year `y`. -/
def sumMonths (y : Int) : Nat → Int
  | 0 => 0
  | n + 1 => sumMonths y n + daysInMonth y (n + 1)

/-- The day count from the epoch: the number of days from 1970-01-01 to the
date `y`-`m`-`d` (negative before 1970). -/
def daysFromEpoch (y m d : Int) : Int :=
  (if 1970 ≤ y then sumYears 1970 (y - 1970).toNat else -sumYears y (1970 - y).toNat)
    + sumMonths y (m - 1).toNat + (d - 1)

/-! ## Auxiliary closed forms used in the proofs -/

/-- Closed form of `daysSinceEpoch` in terms of the year offset `t`. -/
def cycleDays (t : Int) : Int :=
  146097 * (t / 400) + 36524 * (t % 400 / 100) + 1461 * (t % 400 % 100 / 4)
    + 365 * (t % 400 % 100 % 4)

/-- Days before month `m` in year `y`, as `time.Date` computes them. -/
def monthPart (y m : Int) : Int :=
  if isLeap y ∧ m ≥ 3 then daysBefore.getD (m - 1).toNat 0 + 1
  else daysBefore.getD (m - 1).toNat 0

/-! ## Files: the operating system as the helpers see it -/

/-- Flags of `os.OpenFile`; a flag word `a|b|c` is the list `[a, b, c]`. -/
inductive OFlag where
  | O_RDONLY
  | O_RDWR
  | O_CREATE
  | O_EXCL
  | O_TRUNC
deriving DecidableEq, Repr

/-- What `os.Stat` reports about a path, as far as the helpers read it. -/
structure FileInfo where
  Size : Int
  IsDir : Bool
deriving DecidableEq, Repr

/-- The calls into packages `os` and `io` made by the file helpers, acting on a
world `W` with file handles `H` (`*os.File`). `OpenFile` returns either a handle
or an error. `Copy dst src none` is `io.Copy(dst, src)` and `Copy dst src (some n)`
is `io.Copy(dst, io.LimitReader(src, n))`. Any call may fail. -/
structure OS (W H : Type) where
  OpenFile : String → List OFlag → Nat → W → Except GoError H × W
  Truncate : H → Int → W → error × W
  Close : H → W → error × W
  Copy : H → H → Option Int → W → (Int × error) × W
  Stat : String → W → Except GoError FileInfo

/-- Go `os.Open(name)`: `OpenFile(name, O_RDONLY, 0)`. -/
def osOpen {W H : Type} (os : OS W H) (name : String) (w : W) : Except GoError H × W :=
  os.OpenFile name [OFlag.O_RDONLY] 0 w

/-- Go `os.Create(name)`: `OpenFile(name, O_RDWR|O_CREATE|O_TRUNC, 0666)`. -/
def osCreate {W H : Type} (os : OS W H) (name : String) (w : W) : Except GoError H × W :=
  os.OpenFile name [OFlag.O_RDWR, OFlag.O_CREATE, OFlag.O_TRUNC] 438 w

/-- Value `io.EOF`. -/
def ioEOF : GoError := errorsNew "EOF"

/-- Go `io.Copy(dst, src)`. -/
def ioCopy {W H : Type} (os : OS W H) (dst src : H) (w : W) : (Int × error) × W :=
  os.Copy dst src none w

/-- Go `io.CopyN(dst, src, n)`: copy through a `LimitReader`; `written == n` gives
`(n, nil)`, and a short copy without error gives `io.EOF`. -/
def ioCopyN {W H : Type} (os : OS W H) (dst src : H) (n : Int) (w : W) : (Int × error) × W :=
  let r := os.Copy dst src (some n) w
  if r.1.1 = n then ((n, none), r.2)
  else if r.1.1 < n ∧ r.1.2 = none then ((r.1.1, some ioEOF), r.2)
  else r

/-- Function `CopyFile`. The two deferred `Close` calls run in reverse order of
their `defer` statements and their results are discarded. -/
def CopyFile {W H : Type} (os : OS W H) (dst src : String) (s : Proc W) :
    (Int × error) × Proc W :=
  match osOpen os src s.world with
  | (Except.error e, w1) => ((0, some e), { s with world := w1 })
  | (Except.ok fin, w1) =>
    match osCreate os dst w1 with
    | (Except.error e, w2) => ((0, some e), { s with world := (os.Close fin w2).2 })
    | (Except.ok fout, w2) =>
      let r := ioCopy os fout fin w2
      let w3 := (os.Close fout r.2).2
      let w4 := (os.Close fin w3).2
      (r.1, { s with world := w4 })

/-- Function `CopyFileN`. -/
def CopyFileN {W H : Type} (os : OS W H) (dst src : String) (n : Int) (s : Proc W) :
    (Int × error) × Proc W :=
  match osOpen os src s.world with
  | (Except.error e, w1) => ((0, some e), { s with world := w1 })
  | (Except.ok fin, w1) =>
    match osCreate os dst w1 with
    | (Except.error e, w2) => ((0, some e), { s with world := (os.Close fin w2).2 })
    | (Except.ok fout, w2) =>
      let r := ioCopyN os fout fin n w2
      let w3 := (os.Close fout r.2).2
      let w4 := (os.Close fin w3).2
      (r.1, { s with world := w4 })

/-- The method value `f.Close` as an `Errable`. -/
def closeErrable {W H : Type} (os : OS W H) (f : H) : Errable W :=
  fun w => (Except.ok (os.Close f w).1, (os.Close f w).2)

/-- Function `CreateFile`. The deferred `CleanUp(f.Close, &err)` runs after
`err = f.Truncate(sz)` and writes to the named result `err`. -/
def CreateFile {W H : Type} (os : OS W H) (p : String) (sz : Int) (s : Proc W) :
    Except Any error × Proc W :=
  match os.OpenFile p [OFlag.O_RDWR, OFlag.O_CREATE, OFlag.O_EXCL] 420 s.world with
  | (Except.error e, w1) => (Except.ok (some e), { s with world := w1 })
  | (Except.ok f, w1) =>
    let t := os.Truncate f sz w1
    let c := CleanUp (closeErrable os f) t.1 { s with world := t.2 }
    match c.1 with
    | Except.error v => (Except.error v, c.2.2)
    | Except.ok _ => (Except.ok c.2.1, c.2.2)

/-- Function `FileSize`. -/
def FileSize {W H : Type} (os : OS W H) (p : String) (w : W) : Int × error :=
  match os.Stat p w with
  | Except.ok fi => (fi.Size, none)
  | Except.error e => (0, some e)

/-- An operating system that answers every call with a prepared result and
records the calls in the world, oldest first. Handles are numbers: `OpenFile`
hands out the number of calls recorded so far. -/
def scriptedOS (openRes : String → Except GoError Unit) (truncRes : error)
    (closeRes : Nat → error) (copyRes : Int × error) : OS (List String) Nat where
  OpenFile := fun name _ _ w =>
    match openRes name with
    | Except.ok _ => (Except.ok w.length, w ++ ["open " ++ name])
    | Except.error e => (Except.error e, w ++ ["open " ++ name])
  Truncate := fun _ _ w => (truncRes, w ++ ["truncate"])
  Close := fun h w => (closeRes h, w ++ ["close"])
  Copy := fun _ _ _ w => (copyRes, w ++ ["copy"])
  Stat := fun _ _ => Except.ok { Size := 0, IsDir := false }

/-! ## An in-memory filesystem

A map from paths to byte contents. Every string is a path; parent directories,
permissions and links are not modelled, and a call fails only for the reason the
operating system documents for the state it finds (no injected I/O failures). -/

/-- What a path names: a regular file with its bytes, or a directory. -/
inductive Node where
  | file (content : List UInt8)
  | dir
deriving DecidableEq, Repr

/-- An open file description: the path it was opened at, the file offset,
whether it was opened for writing, and whether it has been closed. -/
structure FileDesc where
  path : String
  pos : Nat
  writable : Bool
  closed : Bool
deriving DecidableEq, Repr

/-- State of the in-memory filesystem: the nodes by path, the handles handed
out so far, and the number of the next handle. -/
structure MemFS where
  nodes : String → Option Node
  handles : Nat → Option FileDesc
  next : Nat

/-- Value `syscall.EEXIST`. -/
def EEXIST : GoError := errorsNew "file exists"

/-- Value `syscall.ENOENT`. -/
def ENOENT : GoError := errorsNew "no such file or directory"

/-- Value `syscall.EISDIR`. -/
def EISDIR : GoError := errorsNew "is a directory"

/-- Value `syscall.EINVAL`. -/
def EINVAL : GoError := errorsNew "invalid argument"

/-- Value `syscall.EBADF`. -/
def EBADF : GoError := errorsNew "bad file descriptor"

/-- Value `os.ErrClosed`. -/
def ErrClosed : GoError := errorsNew "file already closed"

/-- Go `os.IsExist(err)`: the error, or the error inside a `*PathError`, says
that the file exists. -/
def IsExist (err : error) : Bool :=
  match err with
  | some (GoError.pathError _ _ e) => decide (e = EEXIST)
  | some e => decide (e = EEXIST)
  | none => false

/-- The filesystem with path `p` naming `n`. -/
def MemFS.setNode (fs : MemFS) (p : String) (n : Node) : MemFS :=
  { fs with nodes := fun q => if q = p then some n else fs.nodes q }

/-- The filesystem with handle `h` described by `d`. -/
def MemFS.setHandle (fs : MemFS) (h : Nat) (d : FileDesc) : MemFS :=
  { fs with handles := fun k => if k = h then some d else fs.handles k }

/-- A fresh handle for the description `d`. -/
def MemFS.alloc (fs : MemFS) (d : FileDesc) : Nat × MemFS :=
  (fs.next, { fs.setHandle fs.next d with next := fs.next + 1 })

/-- File content cut or zero-extended to `n` bytes. -/
def resize (c : List UInt8) (n : Nat) : List UInt8 :=
  c.take n ++ List.replicate (n - c.length) 0

/-- File content after writing `data` at offset `pos`. -/
def writeAt (old : List UInt8) (pos : Nat) (data : List UInt8) : List UInt8 :=
  resize old pos ++ data ++ old.drop (pos + data.length)

/-- The system call behind `os.OpenFile`: `O_CREATE|O_EXCL` fails with `EEXIST` on
an existing file or directory, `O_CREATE` creates a missing file, `O_TRUNC` empties
an existing file, a directory cannot be opened for writing. -/
def memOpenFile (name : String) (flags : List OFlag) (_perm : Nat) (fs : MemFS) :
    Except GoError Nat × MemFS :=
  let wr : Bool := decide (OFlag.O_RDWR ∈ flags)
  match fs.nodes name with
  | some Node.dir =>
    if OFlag.O_CREATE ∈ flags ∧ OFlag.O_EXCL ∈ flags then
      (Except.error (GoError.pathError "open" name EEXIST), fs)
    else if wr then (Except.error (GoError.pathError "open" name EISDIR), fs)
    else
      let a := fs.alloc { path := name, pos := 0, writable := false, closed := false }
      (Except.ok a.1, a.2)
  | some (Node.file _) =>
    if OFlag.O_CREATE ∈ flags ∧ OFlag.O_EXCL ∈ flags then
      (Except.error (GoError.pathError "open" name EEXIST), fs)
    else
      let fs1 := if OFlag.O_TRUNC ∈ flags then fs.setNode name (Node.file []) else fs
      let a := fs1.alloc { path := name, pos := 0, writable := wr, closed := false }
      (Except.ok a.1, a.2)
  | none =>
    if OFlag.O_CREATE ∈ flags then
      let a := (fs.setNode name (Node.file [])).alloc
        { path := name, pos := 0, writable := wr, closed := false }
      (Except.ok a.1, a.2)
    else (Except.error (GoError.pathError "open" name ENOENT), fs)

/-- Method `(*os.File).Truncate`: the file gets exactly `sz` bytes, new bytes
being zero. -/
def memTruncate (h : Nat) (sz : Int) (fs : MemFS) : error × MemFS :=
  match fs.handles h with
  | none => (some EINVAL, fs)
  | some d =>
    if d.closed then (some (GoError.pathError "truncate" d.path ErrClosed), fs)
    else if sz < 0 ∨ d.writable = false then
      (some (GoError.pathError "truncate" d.path EINVAL), fs)
    else
      match fs.nodes d.path with
      | some (Node.file c) => (none, fs.setNode d.path (Node.file (resize c sz.toNat)))
      | _ => (some (GoError.pathError "truncate" d.path EINVAL), fs)

/-- Method `(*os.File).Close`: closing twice is an error. -/
def memClose (h : Nat) (fs : MemFS) : error × MemFS :=
  match fs.handles h with
  | none => (some EINVAL, fs)
  | some d =>
    if d.closed then (some (GoError.pathError "close" d.path ErrClosed), fs)
    else (none, fs.setHandle h { d with closed := true })

/-- Function `io.Copy` from handle `src` (through a `LimitReader` when `limit` is
given) to handle `dst`: the bytes of the source file from its offset on, at
most `limit` of them, are written at the offset of `dst`, and both offsets
advance. The bytes read are those present before the call, which is what
happens when the handles name different files. -/
def memCopy (dst src : Nat) (limit : Option Int) (fs : MemFS) : (Int × error) × MemFS :=
  match fs.handles src, fs.handles dst with
  | some sd, some dd =>
    if sd.closed then ((0, some (GoError.pathError "read" sd.path ErrClosed)), fs)
    else
      match fs.nodes sd.path with
      | some (Node.file c) =>
        let avail := c.drop sd.pos
        let data := match limit with
          | none => avail
          | some n => avail.take n.toNat
        if data.isEmpty then ((0, none), fs)
        else if dd.closed then ((0, some (GoError.pathError "write" dd.path ErrClosed)), fs)
        else if dd.writable = false then
          ((0, some (GoError.pathError "write" dd.path EBADF)), fs)
        else
          match fs.nodes dd.path with
          | some (Node.file old) =>
            let fs1 := fs.setNode dd.path (Node.file (writeAt old dd.pos data))
            let fs2 := fs1.setHandle src { sd with pos := sd.pos + data.length }
            let fs3 := fs2.setHandle dst { dd with pos := dd.pos + data.length }
            (((data.length : Int), none), fs3)
          | _ => ((0, some (GoError.pathError "write" dd.path EBADF)), fs)
      | _ => ((0, some (GoError.pathError "read" sd.path EISDIR)), fs)
  | _, _ => ((0, some EINVAL), fs)

/-- Function `os.Stat`: the size of a file is the number of its bytes. -/
def memStat (name : String) (fs : MemFS) : Except GoError FileInfo :=
  match fs.nodes name with
  | some (Node.file c) => Except.ok { Size := c.length, IsDir := false }
  | some Node.dir => Except.ok { Size := 0, IsDir := true }
  | none => Except.error (GoError.pathError "stat" name ENOENT)

/-- The in-memory filesystem as an operating system. -/
def memOS : OS MemFS Nat where
  OpenFile := memOpenFile
  Truncate := memTruncate
  Close := memClose
  Copy := memCopy
  Stat := memStat

/-- A filesystem holding one file and, optionally, one more node. -/
def fsWith (p : String) (c : List UInt8) (q : String) (n : Option Node) : MemFS where
  nodes := fun x => if x = p then some (Node.file c) else if x = q then n else none
  handles := fun _ => none
  next := 0

/-! ## Deferred recovery, paths and zero-terminated byte slices -/

/-- A function of the shape `func() { defer PanicCatcher(&slot); body }`: the
body runs, then the deferred `PanicCatcher` runs with `recover()` returning the
panic value of the body (`nil` when the body returned). `same` says whether the
slot and the panic value are the same pointer. The result is how the function
ends, the slot and the process state. -/
def deferPanicCatcher {W : Type} (stack : String) (same : Bool)
    (body : Proc W → Except Any Unit × Proc W) (slot : error) (s : Proc W) :
    Except Any Unit × error × Proc W :=
  let r := body s
  match r.1 with
  | Except.error v => PanicCatcher stack same v slot r.2
  | Except.ok _ => PanicCatcher stack same Any.nil slot r.2

/-- The two functions of package `path/filepath` that `MakePath` calls; they
depend on the platform. -/
structure Filepath where
  IsAbs : String → Bool
  Join : List String → String

/-- Function `MakePath`. -/
def MakePath (fp : Filepath) (wd p : String) : String :=
  if fp.IsAbs p then p else fp.Join [wd, p]

/-- Unix `filepath.IsAbs`: the path begins with a slash. -/
def unixIsAbs (path : String) : Bool := path.data.head? = some '/'

/-- One element in the lexical processing of `filepath.Clean`; `stack` holds the
elements kept so far, last one first. Empty and `.` elements are dropped, `..`
removes the element before it, is dropped at the root, and is kept at the
start of a relative path. -/
def cleanStep (rooted : Bool) (stack : List (List Char)) (seg : List Char) :
    List (List Char) :=
  if seg = [] ∨ seg = ['.'] then stack
  else if seg = ['.', '.'] then
    match stack with
    | top :: rest => if top = ['.', '.'] then seg :: stack else rest
    | [] => if rooted then [] else [seg]
  else seg :: stack

/-- Unix `filepath.Clean`. -/
def unixClean (path : String) : String :=
  match path.data with
  | [] => "."
  | c :: _ =>
    let rooted : Bool := c = '/'
    let kept := ((splitChars '/' path.data).foldl (cleanStep rooted) []).reverse
    let body := String.intercalate "/" (kept.map String.mk)
    if rooted then "/" ++ body
    else if kept.isEmpty then "." else body

/-- Unix `filepath.Join`: the elements from the first non-empty one on, joined
with slashes and cleaned; the empty string when all are empty. -/
def unixJoin (elem : List String) : String :=
  match elem.dropWhile (fun e => e = "") with
  | [] => ""
  | rest => unixClean (String.intercalate "/" rest)

/-- Package `path/filepath` on Unix. -/
def unixFilepath : Filepath where
  IsAbs := unixIsAbs
  Join := unixJoin

/-- Go `bytes.IndexByte(b, c)`: the index of the first `c` in `b`, or -1. -/
def IndexByte : List UInt8 → UInt8 → Int
  | [], _ => -1
  | x :: xs, c =>
    if x = c then 0
    else
      let i := IndexByte xs c
      if i ≥ 0 then i + 1 else -1

/-- Function `StrFromSzslice`; the result is the byte sequence of the returned
string. -/
def StrFromSzslice (byteArray : List UInt8) : List UInt8 :=
  let n := IndexByte byteArray 0
  if n ≥ 0 then byteArray.take n.toNat
  else byteArray

/-! ## Theorems -/

theorem wrapInt64_of_range (x : Int) (h1 : -9223372036854775808 ≤ x)
    (h2 : x < 9223372036854775808) : wrapInt64 x = x := by
  unfold wrapInt64
  omega

theorem totalRead_nonneg (results : List (Int × error)) (h : ∀ p ∈ results, 0 ≤ p.1) :
    0 ≤ totalRead results := by
  induction results with
  | nil => simp [totalRead]
  | cons p ps ih =>
    simp only [totalRead, List.map_cons, List.sum_cons, List.mem_cons, forall_eq_or_imp] at h ⊢
    have := ih h.2
    simp only [totalRead] at this
    omega

theorem readMany_frame {ρ κ : Type} (rd : ReaderRead ρ) (bufs : List Nat) :
    ∀ r : IndexedReadCloser ρ κ,
      (∀ p ∈ (IndexedReadCloser.readMany rd r bufs).1, 0 ≤ p.1) →
      0 ≤ r.Idx →
      r.Idx + totalRead (IndexedReadCloser.readMany rd r bufs).1 < 9223372036854775808 →
      (IndexedReadCloser.readMany rd r bufs).2.Idx
          = r.Idx + totalRead (IndexedReadCloser.readMany rd r bufs).1
        ∧ (IndexedReadCloser.readMany rd r bufs).2.Len = r.Len := by
  induction bufs with
  | nil =>
    intro r _ _ _
    simp [IndexedReadCloser.readMany, totalRead]
  | cons b bs ih =>
    intro r hn h0 hlt
    simp only [IndexedReadCloser.readMany, totalRead, List.map_cons, List.sum_cons,
      List.mem_cons, forall_eq_or_imp] at hn hlt ⊢
    obtain ⟨hn1, hn2⟩ := hn
    have hstep : (IndexedReadCloser.Read rd r b).1 = (rd r.R b).1 := rfl
    rw [hstep] at hn1 hlt ⊢
    have hidx : (IndexedReadCloser.Read rd r b).2.Idx
        = wrapInt64 (r.Idx + wrapInt64 (rd r.R b).1.1) := rfl
    have hlen : (IndexedReadCloser.Read rd r b).2.Len = r.Len := rfl
    have hpos := totalRead_nonneg _ hn2
    simp only [totalRead] at hpos
    have hw1 : wrapInt64 (rd r.R b).1.1 = (rd r.R b).1.1 :=
      wrapInt64_of_range _ (by omega) (by omega)
    have hw2 : wrapInt64 (r.Idx + (rd r.R b).1.1) = r.Idx + (rd r.R b).1.1 :=
      wrapInt64_of_range _ (by omega) (by omega)
    rw [hw1, hw2] at hidx
    have htot := ih (IndexedReadCloser.Read rd r b).2 hn2 (by omega)
      (by simp only [totalRead]; omega)
    simp only [totalRead] at htot
    rw [htot.1, htot.2, hidx, hlen]
    exact ⟨by omega, rfl⟩

/-- C1: a wrapper built with `Idx = 0` and declared length `L`, after any finite
sequence of `Read` calls whose underlying reads returned non-negative counts
totalling `N` (without leaving the `int64` range), has `Rest() = L - N` and
`EOF() = (N ≥ L)`, whatever errors the reads returned and also when `N > L`. -/
theorem IndexedReadCloser_rest_eof {ρ κ : Type} (rd : ReaderRead ρ) (R : ρ) (C : κ)
    (L : Int) (bufs : List Nat)
    (hL : -9223372036854775808 ≤ L ∧ L < 9223372036854775808)
    (hn : ∀ p ∈ (IndexedReadCloser.readMany rd
      ({ R := R, C := C, Idx := 0, Len := L } : IndexedReadCloser ρ κ) bufs).1, 0 ≤ p.1)
    (hN : totalRead (IndexedReadCloser.readMany rd
      ({ R := R, C := C, Idx := 0, Len := L } : IndexedReadCloser ρ κ) bufs).1
        < 9223372036854775808)
    (hrest : -9223372036854775808 ≤ L - totalRead (IndexedReadCloser.readMany rd
      ({ R := R, C := C, Idx := 0, Len := L } : IndexedReadCloser ρ κ) bufs).1) :
    (IndexedReadCloser.readMany rd
      ({ R := R, C := C, Idx := 0, Len := L } : IndexedReadCloser ρ κ) bufs).2.Rest
        = L - totalRead (IndexedReadCloser.readMany rd
            ({ R := R, C := C, Idx := 0, Len := L } : IndexedReadCloser ρ κ) bufs).1
      ∧ (IndexedReadCloser.readMany rd
          ({ R := R, C := C, Idx := 0, Len := L } : IndexedReadCloser ρ κ) bufs).2.EOF
        = decide (totalRead (IndexedReadCloser.readMany rd
            ({ R := R, C := C, Idx := 0, Len := L } : IndexedReadCloser ρ κ) bufs).1 ≥ L) := by
  have hf := readMany_frame rd bufs
    ({ R := R, C := C, Idx := 0, Len := L } : IndexedReadCloser ρ κ) hn (le_refl _)
    (by simpa using hN)
  have hpos := totalRead_nonneg _ hn
  simp only [zero_add] at hf
  unfold IndexedReadCloser.Rest IndexedReadCloser.EOF
  rw [hf.1, hf.2]
  exact ⟨wrapInt64_of_range _ hrest (by omega), rfl⟩

/-- C1 at a concrete run: declared length 5, three reads returning 4 bytes,
then 3 bytes with an error, then 0 bytes with EOF: `Rest() = -2`, `EOF() = true`. -/
theorem IndexedReadCloser_rest_eof_witness :
    (IndexedReadCloser.readMany scriptedRead
      ({ R := [(4, none), (3, some (errorsNew "short"))], C := (), Idx := 0, Len := 5 } :
        IndexedReadCloser (List (Int × error)) Unit) [4, 4, 4]).2.Rest = -2
      ∧ (IndexedReadCloser.readMany scriptedRead
      ({ R := [(4, none), (3, some (errorsNew "short"))], C := (), Idx := 0, Len := 5 } :
        IndexedReadCloser (List (Int × error)) Unit) [4, 4, 4]).2.EOF = true := by
  have h := IndexedReadCloser_rest_eof scriptedRead
    [(4, none), (3, some (errorsNew "short"))] () 5 [4, 4, 4]
    (by decide) (by decide) (by decide) (by decide)
  exact h

/-! ### Error-escalation shim -/

/-- C5: when `errable` returns `e`, `CleanUp(errable, slot)` returns normally,
leaves a non-nil prior slot value `p` in place, stores `e` when the slot was
nil, and has invoked `errable` exactly once (the world is the one a single call
leaves behind). -/
theorem CleanUp_first_fault_wins {W : Type} (errable : Errable W) (p e : error) (s : Proc W)
    (w : W) (h : errable s.world = (Except.ok e, w)) :
    (CleanUp errable p s).1 = Except.ok ()
      ∧ (p ≠ none → (CleanUp errable p s).2.1 = p)
      ∧ (p = none → (CleanUp errable p s).2.1 = e)
      ∧ (CleanUp errable p s).2.2.world = w := by
  unfold CleanUp
  rw [h]
  cases e <;> cases p <;> simp

/-- C5 at concrete inputs: a cleanup fault does not replace the prior fault, and
the errable ran once. -/
theorem CleanUp_first_fault_wins_witness :
    (CleanUp (countingErrable (some (errorsNew "close failed")))
        (some (errorsNew "truncate failed")) { world := 0, log := [] }).1 = Except.ok ()
      ∧ (CleanUp (countingErrable (some (errorsNew "close failed")))
        (some (errorsNew "truncate failed")) { world := 0, log := [] }).2.1
          = some (errorsNew "truncate failed")
      ∧ (CleanUp (countingErrable (some (errorsNew "close failed")))
        (some (errorsNew "truncate failed")) { world := 0, log := [] }).2.2.world = 1 := by
  have h := CleanUp_first_fault_wins (countingErrable (some (errorsNew "close failed")))
    (some (errorsNew "truncate failed")) (some (errorsNew "close failed"))
    { world := 0, log := [] } 1 rfl
  exact ⟨h.1, h.2.1 (by simp), h.2.2.2⟩

/-- C6: when `errable` returns a non-nil fault `ev`, after `CleanUp` either the
slot holds `ev` or exactly one entry was appended to the log, carrying the
shadowed annotation and naming `ev` and the prior fault of the slot; when
`errable` returns nil the log and the slot are unchanged. -/
theorem CleanUp_never_discards {W : Type} (errable : Errable W) (p e : error) (s : Proc W)
    (w : W) (h : errable s.world = (Except.ok e, w)) :
    (∀ ev, e = some ev →
      ((CleanUp errable p s).2.1 = some ev ∧ (CleanUp errable p s).2.2.log = s.log)
      ∨ (∃ cur, p = some cur ∧ (CleanUp errable p s).2.1 = some cur
          ∧ (CleanUp errable p s).2.2.log = s.log ++
            [LogEntry.Println [Any.str "Error be shadowed during cleanup:", Any.error ev,
              Any.str "For:", Any.error cur]]))
      ∧ (e = none → (CleanUp errable p s).2.2.log = s.log ∧ (CleanUp errable p s).2.1 = p) := by
  unfold CleanUp
  rw [h]
  cases e <;> cases p <;> simp

/-- C6 at concrete inputs: the cleanup fault is shadowed by the prior fault and
logged once, naming both. -/
theorem CleanUp_never_discards_witness :
    (CleanUp (countingErrable (some (errorsNew "close failed")))
        (some (errorsNew "truncate failed")) { world := 0, log := [] }).2.2.log
      = [LogEntry.Println [Any.str "Error be shadowed during cleanup:",
          Any.error (errorsNew "close failed"), Any.str "For:",
          Any.error (errorsNew "truncate failed")]] := by
  have h := (CleanUp_never_discards (countingErrable (some (errorsNew "close failed")))
    (some (errorsNew "truncate failed")) (some (errorsNew "close failed"))
    { world := 0, log := [] } 1 rfl).1 (errorsNew "close failed") rfl
  rcases h with h | ⟨cur, hcur, _, hlog⟩
  · exact absurd h.1 (by decide)
  · have hc : cur = errorsNew "truncate failed" := (Option.some.inj hcur).symm
    rw [hlog, hc]
    rfl

theorem ifaceNe_of_ne (same : Bool) (a b : GoError) (hne : a ≠ b)
    (hk : a.dynType ≠ b.dynType ∨ a.kind ≠ TypeKind.uncomparable) :
    ifaceNe same a b = Except.ok true := by
  unfold ifaceNe
  by_cases ht : a.dynType = b.dynType
  · have hk2 : a.kind ≠ TypeKind.uncomparable := by
      rcases hk with h | h
      · exact absurd ht h
      · exact h
    cases hkind : a.kind with
    | uncomparable => exact absurd hkind hk2
    | value => simp [ht, hne]
    | pointer => simp [ht, hne]
  · simp [ht]

theorem ifaceNe_distinct_pointers (a b : GoError) (hk : a.kind = TypeKind.pointer) :
    ifaceNe false a b = Except.ok true := by
  unfold ifaceNe
  by_cases ht : a.dynType = b.dynType
  · simp [ht, hk]
  · simp [ht]

/-- C7 fails as stated: with the slot holding one fault and the recovered error
being a different fault of the same uncomparable dynamic type (a slice type
with an `Error` method, say), the comparison `*err != e` panics: `PanicCatcher`
ends with a run-time error and the log holds the entry of the recovered value
only, no shadowed entry. -/
theorem PanicCatcher_uncomparable_panics :
    GoError.uncomparable "main.MultiErr" "a" ≠ GoError.uncomparable "main.MultiErr" "b"
      ∧ (PanicCatcher "goroutine 1" false (Any.error (GoError.uncomparable "main.MultiErr" "b"))
          (some (GoError.uncomparable "main.MultiErr" "a"))
          ({ world := (), log := [] } : Proc Unit)).1
        = Except.error (Any.error
            (GoError.runtimeError "comparing uncomparable type main.MultiErr"))
      ∧ (PanicCatcher "goroutine 1" false (Any.error (GoError.uncomparable "main.MultiErr" "b"))
          (some (GoError.uncomparable "main.MultiErr" "a"))
          ({ world := (), log := [] } : Proc Unit)).2.2.log
        = [LogEntry.Printf "Error: %s\nstacktrace from panic: %s\n"
            [Any.error (GoError.uncomparable "main.MultiErr" "b"),
              Any.other "[]byte" "goroutine 1"]] := by
  refine ⟨by decide, rfl, rfl⟩

/-- C7, amended: with no panic in flight `PanicCatcher` changes nothing; a
recovered error `e` is stored when the slot is nil; when the slot holds a fault
that Go's `!=` reports as different from `e`, the slot is left as it is and a
shadowed entry naming both follows the entry of the recovered value in the log;
when the slot holds a fault equal to `e` it is unchanged. `!=` reports every
fault of other content as different unless both have the same uncomparable
dynamic type, and it reports two different pointers as different even when
their content is the same. -/
theorem PanicCatcher_shadow_policy {W : Type} (stack : String) (same : Bool) (e : GoError)
    (p : error) (s : Proc W) :
    PanicCatcher stack same Any.nil p s = (Except.ok (), p, s)
      ∧ ((PanicCatcher stack same (Any.error e) none s).1 = Except.ok ()
          ∧ (PanicCatcher stack same (Any.error e) none s).2.1 = some e)
      ∧ (∀ cur, ifaceNe same cur e = Except.ok true →
          (PanicCatcher stack same (Any.error e) (some cur) s).1 = Except.ok ()
          ∧ (PanicCatcher stack same (Any.error e) (some cur) s).2.1 = some cur
          ∧ (PanicCatcher stack same (Any.error e) (some cur) s).2.2.log = s.log ++
              [LogEntry.Printf "Error: %s\nstacktrace from panic: %s\n"
                [Any.error e, Any.other "[]byte" stack]] ++
              [LogEntry.Println [Any.str "Error be shadowed:", Any.error e, Any.str "For:",
                Any.error cur]])
      ∧ (∀ cur, ifaceNe same cur e = Except.ok false →
          (PanicCatcher stack same (Any.error e) (some cur) s).1 = Except.ok ()
          ∧ (PanicCatcher stack same (Any.error e) (some cur) s).2.1 = some cur
          ∧ (PanicCatcher stack same (Any.error e) (some cur) s).2.2.log = s.log ++
              [LogEntry.Printf "Error: %s\nstacktrace from panic: %s\n"
                [Any.error e, Any.other "[]byte" stack]])
      ∧ (∀ cur, cur ≠ e → (cur.dynType ≠ e.dynType ∨ cur.kind ≠ TypeKind.uncomparable) →
          ifaceNe same cur e = Except.ok true)
      ∧ (∀ cur, cur.kind = TypeKind.pointer → ifaceNe false cur e = Except.ok true) := by
  refine ⟨rfl, ?_, ?_, ?_, ?_, ?_⟩
  · simp [PanicCatcher, errorNe]
  · intro cur h
    simp [PanicCatcher, errorNe, h]
  · intro cur h
    simp [PanicCatcher, errorNe, h]
  · intro cur hne hk
    exact ifaceNe_of_ne same cur e hne hk
  · intro cur hk
    exact ifaceNe_distinct_pointers cur e hk

/-- C7 amended, at two results of `errors.New("same")`: they are different
pointers, so the prior fault is kept and the recovered one is logged as
shadowed. -/
theorem PanicCatcher_shadow_policy_witness :
    (PanicCatcher "goroutine 1" false (Any.error (errorsNew "same"))
        (some (errorsNew "same")) ({ world := (), log := [] } : Proc Unit)).1 = Except.ok ()
      ∧ (PanicCatcher "goroutine 1" false (Any.error (errorsNew "same"))
        (some (errorsNew "same")) ({ world := (), log := [] } : Proc Unit)).2.1
          = some (errorsNew "same")
      ∧ (PanicCatcher "goroutine 1" false (Any.error (errorsNew "same"))
        (some (errorsNew "same")) ({ world := (), log := [] } : Proc Unit)).2.2.log
          = [] ++ [LogEntry.Printf "Error: %s\nstacktrace from panic: %s\n"
                [Any.error (errorsNew "same"), Any.other "[]byte" "goroutine 1"]] ++
              [LogEntry.Println [Any.str "Error be shadowed:",
                Any.error (errorsNew "same"), Any.str "For:",
                Any.error (errorsNew "same")]] :=
  (PanicCatcher_shadow_policy "goroutine 1" false (errorsNew "same") none
    ({ world := (), log := [] } : Proc Unit)).2.2.1 (errorsNew "same") rfl

/-- C8 fails on the code: with a panic raised with the plain string "boom" in
flight, `PanicCatcher` logs the value and then panics itself with the
`*runtime.TypeAssertionError` of `r.(error)`, for any stack text, slot and
process state. -/
theorem PanicCatcher_string_panics_anew {W : Type} (stack : String) (same : Bool) (p : error)
    (s : Proc W) :
    (PanicCatcher stack same (Any.other "string" "boom") p s).1
        = Except.error (Any.error (GoError.typeAssertionError "string"))
      ∧ (PanicCatcher stack same (Any.other "string" "boom") p s).2.1 = p := by
  simp [PanicCatcher]

/-- C9: `PE(f)` for a non-nil `f` panics with `f` itself, `PE(nil)` returns
normally, neither changes the process state or the log, and `PEF(errable)` is
`PE` of what `errable()` returns, in the world `errable` leaves behind (a
panic of `errable` itself propagates). -/
theorem PE_PEF_escalate {W : Type} (f : GoError) (s : Proc W) (errable : Errable W) :
    PE (some f) s = (Except.error (Any.error f), s)
      ∧ PE none s = (Except.ok (), s)
      ∧ (∀ e w, errable s.world = (Except.ok e, w) →
          PEF errable s = PE e { s with world := w })
      ∧ (∀ v w, errable s.world = (Except.error v, w) →
          PEF errable s = (Except.error v, { s with world := w })) := by
  refine ⟨rfl, rfl, ?_, ?_⟩
  · intro e w h
    simp [PEF, h]
  · intro v w h
    simp [PEF, h]

/-- C9 at concrete inputs: `PEF` of an errable returning a fault panics with
that fault after one invocation. -/
theorem PE_PEF_escalate_witness :
    PEF (countingErrable (some (errorsNew "boom"))) { world := 0, log := [] }
      = (Except.error (Any.error (errorsNew "boom")), { world := 1, log := [] }) :=
  (PE_PEF_escalate (errorsNew "boom") { world := 0, log := [] }
    (countingErrable (some (errorsNew "boom")))).2.2.1 (some (errorsNew "boom")) 1 rfl

/-- C10: `Assert(true, why)` returns normally and changes nothing;
`Assert(false, why)` panics with an error whose message is "Assertion failed: \n"
followed by `why`, which starts with "Assertion failed" and ends with `why`. -/
theorem Assert_panics_iff_false {W : Type} (why : String) (s : Proc W) :
    Assert true why s = (Except.ok (), s)
      ∧ Assert false why s
          = (Except.error (Any.error (errorsNew ("Assertion failed: \n" ++ why))), s)
      ∧ (errorsNew ("Assertion failed: \n" ++ why)).Error = "Assertion failed: \n" ++ why
      ∧ "Assertion failed".data <+: (errorsNew ("Assertion failed: \n" ++ why)).Error.data
      ∧ why.data <:+ (errorsNew ("Assertion failed: \n" ++ why)).Error.data := by
  refine ⟨rfl, rfl, rfl, ?_, ?_⟩
  · simp only [errorsNew, GoError.Error, String.data_append]
    exact ⟨": \n".data ++ why.data, by simp⟩
  · simp only [errorsNew, GoError.Error, String.data_append]
    exact ⟨"Assertion failed: \n".data, rfl⟩

/-! ### Date strings -/

theorem splitChars_length (sep : Char) (cs : List Char) :
    (splitChars sep cs).length = cs.count sep + 1 := by
  induction cs with
  | nil => simp [splitChars]
  | cons c cs ih =>
    by_cases hc : c = sep
    · subst hc
      simp [splitChars, ih]
    · have hne : (c == sep) = false := by simpa using hc
      cases hsp : splitChars sep cs with
      | nil => rw [hsp] at ih; simp at ih
      | cons seg rest =>
        rw [hsp] at ih
        simp [splitChars, hc, hsp, List.count_cons, hne] at ih ⊢
        omega

/-- C2 fails on the code: `DatestrToInt("abc/1/2")` returns a nil error (and
the timestamp of January 2 of year 0), and so does `DatestrToTime`. -/
theorem DatestrToInt_abc_returns_nil_error :
    DatestrToInt "abc/1/2" = (-62167132800, none)
      ∧ (DatestrToTime "abc/1/2").2 = none := by
  decide

/-- C4: a string whose number of "/"-separated segments is not 3 makes
`DatestrToTime` return the zero time and a non-nil error with message "Invalid
datestr format", and `DatestrToInt` return that same error. -/
theorem DatestrToTime_wrong_segment_count (s : String)
    (h : (stringsSplit s '/').length ≠ 3) :
    DatestrToTime s = (zeroTime, some (errorsNew "Invalid datestr format"))
      ∧ (errorsNew "Invalid datestr format").Error = "Invalid datestr format"
      ∧ (DatestrToInt s).2 = some (errorsNew "Invalid datestr format")
      ∧ (DatestrToInt s).2 = (DatestrToTime s).2 := by
  have h1 : DatestrToTime s = (zeroTime, some (errorsNew "Invalid datestr format")) := by
    unfold DatestrToTime
    simp [h]
  refine ⟨h1, rfl, ?_, rfl⟩
  simp [DatestrToInt, h1]

/-- C4 at the empty string and at "2020/1/2/3". -/
theorem DatestrToTime_wrong_segment_count_witness :
    DatestrToTime "" = (zeroTime, some (errorsNew "Invalid datestr format"))
      ∧ DatestrToTime "2020/1/2/3" = (zeroTime, some (errorsNew "Invalid datestr format"))
      ∧ (DatestrToInt "2020/1/2/3").2 = some (errorsNew "Invalid datestr format") :=
  ⟨(DatestrToTime_wrong_segment_count "" (by decide)).1,
   (DatestrToTime_wrong_segment_count "2020/1/2/3" (by decide)).1,
   (DatestrToTime_wrong_segment_count "2020/1/2/3" (by decide)).2.2.1⟩

/-! ### Calendar arithmetic -/

theorem cycleDays_succ (t : Int) :
    cycleDays (t + 1) = cycleDays t + daysInYear (t + absoluteZeroYear) := by
  unfold cycleDays daysInYear isLeapYear absoluteZeroYear
  by_cases h4 : (t + -292277022399) % 4 = 0 <;>
  by_cases h100 : (t + -292277022399) % 100 = 0 <;>
  by_cases h400 : (t + -292277022399) % 400 = 0 <;>
  simp [h4, h100, h400] <;> omega

theorem cycleDays_add (start : Int) (n : Nat) :
    cycleDays (start + n - absoluteZeroYear)
      = cycleDays (start - absoluteZeroYear) + sumYears start n := by
  induction n with
  | zero => simp [sumYears]
  | succ k ih =>
    have h := cycleDays_succ (start + k - absoluteZeroYear)
    have e1 : start + ((k + 1 : Nat) : Int) - absoluteZeroYear
        = start + k - absoluteZeroYear + 1 := by push_cast; ring
    have e2 : start + (k : Int) - absoluteZeroYear + absoluteZeroYear = start + k := by ring
    rw [e1, h, ih, e2]
    simp [sumYears]
    ring

theorem wrapUint64_of_range (x : Int) (h1 : 0 ≤ x) (h2 : x < 18446744073709551616) :
    wrapUint64 x = x := by
  unfold wrapUint64
  omega

theorem cycleDays_bounds (t : Int) :
    146097 * t - 591 ≤ 400 * cycleDays t ∧ 400 * cycleDays t ≤ 146097 * t + 288 := by
  unfold cycleDays
  omega

theorem cycleDays_nonneg (t : Int) (h : 0 ≤ t) : 0 ≤ cycleDays t := by
  unfold cycleDays
  omega

theorem daysSinceEpoch_eq (y : Int) (h1 : absoluteZeroYear ≤ y) (h2 : y ≤ 292277026595) :
    daysSinceEpoch y = cycleDays (y - absoluteZeroYear) := by
  have hb := cycleDays_bounds (y - absoluteZeroYear)
  have hb0 := cycleDays_nonneg (y - absoluteZeroYear) (by omega)
  have ht : y - absoluteZeroYear ≤ 584554048994 := by unfold absoluteZeroYear; omega
  have ht0 : 0 ≤ y - absoluteZeroYear := by omega
  unfold daysSinceEpoch
  simp only []
  generalize y - absoluteZeroYear = t at *
  rw [wrapInt64_of_range t (by omega) (by omega), wrapUint64_of_range t ht0 (by omega)]
  have hc : 146097 * (t / 400) + 36524 * ((t - 400 * (t / 400)) / 100)
      + 1461 * ((t - 400 * (t / 400) - 100 * ((t - 400 * (t / 400)) / 100)) / 4)
      + 365 * (t - 400 * (t / 400) - 100 * ((t - 400 * (t / 400)) / 100)
          - 4 * ((t - 400 * (t / 400) - 100 * ((t - 400 * (t / 400)) / 100)) / 4))
      = cycleDays t := by
    unfold cycleDays
    omega
  rw [hc]
  exact wrapUint64_of_range _ (by omega) (by omega)

theorem norm_of_range (hi lo base : Int) (h0 : 0 ≤ lo) (h1 : lo < base) :
    norm hi lo base = (hi, lo) := by
  unfold norm
  have h2 : ¬ lo < 0 := by omega
  have h3 : ¬ lo ≥ base := by omega
  simp [h2, h3]

theorem monthPart_eq_sumMonths (y m : Int) (h1 : 1 ≤ m) (h2 : m ≤ 12) :
    monthPart y m = sumMonths y (m - 1).toNat := by
  have hl : isLeap y = isLeapYear y := rfl
  unfold monthPart
  rw [hl]
  interval_cases m <;> cases hleap : isLeapYear y <;>
    simp [sumMonths, daysInMonth, daysBefore, hleap]

theorem monthPart_bounds (y m : Int) (h1 : 1 ≤ m) (h2 : m ≤ 12) :
    0 ≤ monthPart y m ∧ monthPart y m ≤ 335 := by
  unfold monthPart
  interval_cases m <;> cases hleap : isLeap y <;> simp [daysBefore]

theorem Date_midnight_unix (y m d : Int) (hy1 : absoluteZeroYear ≤ y) (hy2 : y ≤ 292277026595)
    (hm1 : 1 ≤ m) (hm2 : m ≤ 12) (hd1 : 1 ≤ d) (hd2 : d ≤ 31) :
    (Date y m d 0 0 0 0).Unix
      = 86400 * (cycleDays (y - absoluteZeroYear) - cycleDays (1970 - absoluteZeroYear)
          + monthPart y m + (d - 1)) := by
  have hmp := monthPart_bounds y m hm1 hm2
  have hb := cycleDays_bounds (y - absoluteZeroYear)
  have hb0 := cycleDays_nonneg (y - absoluteZeroYear) (by omega)
  have hds := daysSinceEpoch_eq y hy1 hy2
  have h1970 : cycleDays (1970 - absoluteZeroYear) = 106751991073094 := by decide
  unfold Date Time.Unix
  simp only [norm_of_range 0 0 1000000000 (le_refl _) (by decide),
    norm_of_range 0 0 60 (le_refl _) (by decide),
    norm_of_range d 0 24 (le_refl _) (by decide),
    wrapInt64_of_range (m - 1) (by omega) (by omega),
    norm_of_range y (m - 1) 12 (by omega) (by omega), hds]
  have hm : m - 1 + 1 = m := by ring
  rw [hm]
  have hif : (if isLeap y = true ∧ m ≥ 3 then
      cycleDays (y - absoluteZeroYear) + daysBefore.getD (m - 1).toNat 0 + 1
      else cycleDays (y - absoluteZeroYear) + daysBefore.getD (m - 1).toNat 0)
      = cycleDays (y - absoluteZeroYear) + monthPart y m := by
    unfold monthPart
    split <;> ring
  rw [hif, h1970]
  have ht : y - absoluteZeroYear ≤ 584554048994 := by unfold absoluteZeroYear; omega
  have ht0 : 0 ≤ y - absoluteZeroYear := by omega
  generalize cycleDays (y - absoluteZeroYear) = c at *
  generalize monthPart y m = mp at *
  generalize y - absoluteZeroYear = t at *
  have e1 : wrapUint64 (d - 1) = d - 1 := wrapUint64_of_range _ (by omega) (by omega)
  have e2 : wrapUint64 (0 * 3600 + 0 * 60 + 0) = 0 := by decide
  have e3 : wrapUint64 (c + mp + (d - 1)) = c + mp + (d - 1) :=
    wrapUint64_of_range _ (by omega) (by omega)
  rw [e1, e2, e3]
  unfold wrapUint64 wrapInt64 absoluteToInternal internalToUnix unixToInternal absoluteZeroYear
  omega

theorem daysInMonth_le (y m : Int) : daysInMonth y m ≤ 31 := by
  unfold daysInMonth
  split
  · split <;> decide
  · split <;> decide

theorem yearPart_eq (y : Int) :
    cycleDays (y - absoluteZeroYear) - cycleDays (1970 - absoluteZeroYear)
      = if 1970 ≤ y then sumYears 1970 (y - 1970).toNat else -sumYears y (1970 - y).toNat := by
  split
  · have h := cycleDays_add 1970 (y - 1970).toNat
    have e : (1970 : Int) + ((y - 1970).toNat : Int) = y := by omega
    rw [e] at h
    omega
  · have h := cycleDays_add y (1970 - y).toNat
    have e : y + ((1970 - y).toNat : Int) = 1970 := by omega
    rw [e] at h
    omega

theorem Date_midnight_daysFromEpoch (y m d : Int) (hy1 : absoluteZeroYear ≤ y)
    (hy2 : y ≤ 292277026595) (hv : validDate y m d) :
    (Date y m d 0 0 0 0).Unix = 86400 * daysFromEpoch y m d := by
  obtain ⟨hm1, hm2, hd1, hd2⟩ := hv
  have hd3 := daysInMonth_le y m
  rw [Date_midnight_unix y m d hy1 hy2 hm1 hm2 hd1 (by omega), yearPart_eq,
    monthPart_eq_sumMonths y m hm1 hm2]
  rfl

/-! ### Parsing -/

theorem isDigit_iff (c : Char) : c.isDigit = true ↔ ('0' ≤ c ∧ c ≤ '9') := by
  simp [Char.isDigit, Char.le_def, UInt32.le_def]

theorem foldl_digits_ge (cs : List Char) :
    ∀ n : Nat, n ≤ cs.foldl (fun acc c => 10 * acc + (c.toNat - 48)) n := by
  induction cs with
  | nil => intro n; simp
  | cons c cs ih =>
    intro n
    simp only [List.foldl_cons]
    have := ih (10 * n + (c.toNat - 48))
    omega

theorem parseUintLoop_digits (cs : List Char) :
    ∀ n : Nat, cs.all Char.isDigit = true →
      cs.foldl (fun acc c => 10 * acc + (c.toNat - 48)) n ≤ 18446744073709551615 →
      parseUintLoop cs n = (cs.foldl (fun acc c => 10 * acc + (c.toNat - 48)) n, none) := by
  induction cs with
  | nil => intro n _ _; rfl
  | cons c cs ih =>
    intro n hall hle
    simp only [List.all_cons, Bool.and_eq_true] at hall
    simp only [List.foldl_cons] at hle ⊢
    have hge := foldl_digits_ge cs (10 * n + (c.toNat - 48))
    have hc := (isDigit_iff c).1 hall.1
    have h1 : ¬ n ≥ 18446744073709551615 / 10 + 1 := by omega
    have h2 : ¬ n * 10 + (c.toNat - 48) > 18446744073709551615 := by omega
    have e : n * 10 + (c.toNat - 48) = 10 * n + (c.toNat - 48) := by omega
    unfold parseUintLoop
    rw [if_pos hc, if_neg h1, if_neg h2, e]
    exact ih _ hall.2 hle

theorem ParseUint_digits (cs : List Char) (hd : isDigits cs = true)
    (hle : digitsValue cs ≤ 18446744073709551615) :
    ParseUint cs = (digitsValue cs, none) := by
  unfold isDigits at hd
  simp only [Bool.and_eq_true, Bool.not_eq_true', List.isEmpty_eq_false] at hd
  cases cs with
  | nil => exact absurd rfl hd.1
  | cons c cs => exact parseUintLoop_digits (c :: cs) 0 hd.2 hle

theorem Atoi_decimal (s : String) (v : Int) (h : decimalValue s = some v)
    (h1 : -9223372036854775808 ≤ v) (h2 : v < 9223372036854775808) :
    Atoi s = (v, none) := by
  unfold decimalValue at h
  unfold Atoi
  cases hs : s.data with
  | nil => rw [hs] at h; simp at h
  | cons c cs =>
    rw [hs] at h
    simp only at h ⊢
    by_cases hm : c = '-'
    · subst hm
      simp only [if_true] at h
      split at h
      · rename_i hd
        have hv : v = -(digitsValue cs : Int) := (Option.some.inj h).symm
        have hp := ParseUint_digits cs hd (by omega)
        simp [hp]
        have hw : wrapInt64 (-wrapInt64 (digitsValue cs : Int)) = -(digitsValue cs : Int) := by
          unfold wrapInt64
          omega
        rw [if_neg (by omega), hv, hw]
      · simp at h
    · by_cases hpl : c = '+'
      · subst hpl
        simp only [if_true, if_neg hm] at h
        split at h
        · rename_i hd
          have hv : v = (digitsValue cs : Int) := (Option.some.inj h).symm
          have hp := ParseUint_digits cs hd (by omega)
          simp [hp]
          rw [if_neg (by omega), hv, wrapInt64_of_range _ (by omega) (by omega)]
        · simp at h
      · simp only [if_neg hm, if_neg hpl] at h
        split at h
        · rename_i hd
          have hv : v = (digitsValue (c :: cs) : Int) := (Option.some.inj h).symm
          have hp := ParseUint_digits (c :: cs) hd (by omega)
          simp [hp, hm, hpl]
          rw [if_neg (by omega), hv, wrapInt64_of_range _ (by omega) (by omega)]
        · simp at h

/-! ### Splitting -/

theorem splitChars_no_sep (sep : Char) (cs : List Char) (h : sep ∉ cs) :
    splitChars sep cs = [cs] := by
  induction cs with
  | nil => rfl
  | cons c cs ih =>
    simp only [List.mem_cons, not_or] at h
    have hc : ¬ c = sep := fun e => h.1 e.symm
    simp [splitChars, hc, ih h.2]

theorem splitChars_append_sep (sep : Char) (cs rest : List Char) (h : sep ∉ cs) :
    splitChars sep (cs ++ sep :: rest) = cs :: splitChars sep rest := by
  induction cs with
  | nil => simp [splitChars]
  | cons c cs ih =>
    simp only [List.mem_cons, not_or] at h
    have hc : ¬ c = sep := fun e => h.1 e.symm
    simp [splitChars, hc, ih h.2]

theorem isDigits_no_slash (cs : List Char) (h : isDigits cs = true) : '/' ∉ cs := by
  unfold isDigits at h
  simp only [Bool.and_eq_true, List.all_eq_true] at h
  intro hmem
  exact absurd (h.2 _ hmem) (by decide)

theorem decimalValue_no_slash (s : String) (v : Int) (h : decimalValue s = some v) :
    '/' ∉ s.data := by
  unfold decimalValue at h
  cases hs : s.data with
  | nil => simp
  | cons c cs =>
    rw [hs] at h
    simp only at h
    by_cases hm : c = '-'
    · subst hm
      simp only [if_true] at h
      split at h
      · rename_i hd
        have := isDigits_no_slash cs hd
        simp [this]
      · simp at h
    · by_cases hpl : c = '+'
      · subst hpl
        simp only [if_true, if_neg hm] at h
        split at h
        · rename_i hd
          have := isDigits_no_slash cs hd
          simp [this]
        · simp at h
      · simp only [if_neg hm, if_neg hpl] at h
        split at h
        · rename_i hd
          exact isDigits_no_slash (c :: cs) hd
        · simp at h

theorem stringsSplit_three (a b c : String) (ha : '/' ∉ a.data) (hb : '/' ∉ b.data)
    (hc : '/' ∉ c.data) :
    stringsSplit (a ++ "/" ++ b ++ "/" ++ c) '/' = [a, b, c] := by
  unfold stringsSplit
  have e : (a ++ "/" ++ b ++ "/" ++ c).data = a.data ++ '/' :: (b.data ++ '/' :: c.data) := by
    simp [String.data_append]
  rw [e, splitChars_append_sep _ _ _ ha, splitChars_append_sep _ _ _ hb,
    splitChars_no_sep _ _ hc]
  rfl

/-- C3, amended: for segments that are decimal integers denoting a valid
calendar date `Y`-`M`-`D` with `-292277022399 ≤ Y ≤ 292277026595`,
`DatestrToInt` of the segments joined by "/" returns a nil error and 86400 times
the day count from 1970-01-01 to that date; the decimal value of a segment does
not depend on leading zeros. -/
theorem DatestrToInt_valid_date (ys ms ds : String) (Y M D : Int)
    (hY : decimalValue ys = some Y) (hM : decimalValue ms = some M)
    (hD : decimalValue ds = some D) (hv : validDate Y M D)
    (hlo : -292277022399 ≤ Y) (hhi : Y ≤ 292277026595) :
    DatestrToInt (ys ++ "/" ++ ms ++ "/" ++ ds) = (86400 * daysFromEpoch Y M D, none) := by
  have hd31 := daysInMonth_le Y M
  obtain ⟨hm1, hm2, hd1, hd2⟩ := id hv
  have hsplit := stringsSplit_three ys ms ds (decimalValue_no_slash ys Y hY)
    (decimalValue_no_slash ms M hM) (decimalValue_no_slash ds D hD)
  have hAy := Atoi_decimal ys Y hY (by omega) (by omega)
  have hAm := Atoi_decimal ms M hM (by omega) (by omega)
  have hAd := Atoi_decimal ds D hD (by omega) (by omega)
  unfold DatestrToInt DatestrToTime
  simp only [hsplit, List.length_cons, List.length_nil]
  simp [hAy, hAm, hAd]
  exact Date_midnight_daysFromEpoch Y M D hlo hhi hv

/-- C3 at "2020/01/02": the result is 1577923200 with a nil error. -/
theorem DatestrToInt_valid_date_witness :
    DatestrToInt "2020/01/02" = (1577923200, none) :=
  DatestrToInt_valid_date "2020" "01" "02" 2020 1 2 (by decide) (by decide) (by decide)
    ⟨by decide, by decide, by decide, by decide⟩ (by decide) (by decide)

theorem sumYears_ge (start : Int) (n : Nat) : 365 * (n : Int) ≤ sumYears start n := by
  induction n with
  | zero => simp [sumYears]
  | succ k ih =>
    have h : 365 ≤ daysInYear (start + k) := by
      unfold daysInYear
      split <;> decide
    simp only [sumYears]
    push_cast
    omega

/-- C3 fails as stated: "300000000000/1/1" has three decimal segments that
denote a valid calendar date, yet the timestamp `DatestrToInt` returns is not
86400 times the day count from the epoch, which exceeds the largest `int64`. -/
theorem DatestrToInt_valid_date_out_of_range :
    decimalValue "300000000000" = some 300000000000
      ∧ decimalValue "1" = some 1
      ∧ validDate 300000000000 1 1
      ∧ DatestrToInt "300000000000/1/1" = (-8979658535876770816, none)
      ∧ 9223372036854775807 < 86400 * daysFromEpoch 300000000000 1 1
      ∧ DatestrToInt "300000000000/1/1" ≠ (86400 * daysFromEpoch 300000000000 1 1, none) := by
  have hge := sumYears_ge 1970 299999998030
  have hd : daysFromEpoch 300000000000 1 1 = sumYears 1970 299999998030 := by
    unfold daysFromEpoch
    have e1 : ((300000000000 : Int) - 1970).toNat = 299999998030 := by decide
    have e2 : ((1 : Int) - 1).toNat = 0 := by decide
    rw [if_pos (by decide), e1, e2]
    simp only [sumMonths]
    omega
  have hbig : 9223372036854775807 < 86400 * daysFromEpoch 300000000000 1 1 := by
    rw [hd]
    push_cast at hge
    omega
  have hval : DatestrToInt "300000000000/1/1" = (-8979658535876770816, none) := by decide
  refine ⟨by decide, by decide, ⟨by decide, by decide, by decide, by decide⟩, hval, hbig, ?_⟩
  rw [hval]
  intro h
  have h1 := congrArg Prod.fst h
  simp only at h1
  omega

/-! ### File lifecycle helpers -/

/-- C11: `CreateFile` never panics and returns faults in priority order. If the
exclusive open fails with `e0` it returns `e0` in the world the open left (no
truncate, no close). Otherwise the world is the one left by one `Truncate`
followed by one `Close`; a `Truncate` fault `e1` is returned whatever `Close`
returns, a `Close` fault being logged as shadowed; with `Truncate` successful
the result is what `Close` returns; so nil is returned only when all three
succeed. -/
theorem CreateFile_fault_priority {W H : Type} (os : OS W H) (p : String) (sz : Int)
    (s : Proc W) :
    (∀ e0 w1,
        os.OpenFile p [OFlag.O_RDWR, OFlag.O_CREATE, OFlag.O_EXCL] 420 s.world
          = (Except.error e0, w1) →
        CreateFile os p sz s = (Except.ok (some e0), { s with world := w1 }))
      ∧ (∀ f w1,
        os.OpenFile p [OFlag.O_RDWR, OFlag.O_CREATE, OFlag.O_EXCL] 420 s.world
          = (Except.ok f, w1) →
        (CreateFile os p sz s).2.world = (os.Close f (os.Truncate f sz w1).2).2
        ∧ (∀ e1, (os.Truncate f sz w1).1 = some e1 →
            (CreateFile os p sz s).1 = Except.ok (some e1)
            ∧ (∀ e2, (os.Close f (os.Truncate f sz w1).2).1 = some e2 →
                (CreateFile os p sz s).2.log = s.log ++
                  [LogEntry.Println [Any.str "Error be shadowed during cleanup:",
                    Any.error e2, Any.str "For:", Any.error e1]])
            ∧ ((os.Close f (os.Truncate f sz w1).2).1 = none →
                (CreateFile os p sz s).2.log = s.log))
        ∧ ((os.Truncate f sz w1).1 = none →
            (CreateFile os p sz s).1 = Except.ok (os.Close f (os.Truncate f sz w1).2).1
            ∧ (CreateFile os p sz s).2.log = s.log))
      ∧ ((CreateFile os p sz s).1 = Except.ok none →
          ∃ f w1,
            os.OpenFile p [OFlag.O_RDWR, OFlag.O_CREATE, OFlag.O_EXCL] 420 s.world
              = (Except.ok f, w1)
            ∧ (os.Truncate f sz w1).1 = none
            ∧ (os.Close f (os.Truncate f sz w1).2).1 = none) := by
  refine ⟨?_, ?_, ?_⟩
  · intro e0 w1 h
    simp [CreateFile, h]
  · intro f w1 h
    unfold CreateFile CleanUp closeErrable
    rw [h]
    cases ht : (os.Truncate f sz w1).1 <;>
      cases hc : (os.Close f (os.Truncate f sz w1).2).1 <;> simp [ht, hc]
  · intro hnil
    unfold CreateFile CleanUp closeErrable at hnil
    rcases ho : os.OpenFile p [OFlag.O_RDWR, OFlag.O_CREATE, OFlag.O_EXCL] 420 s.world
      with ⟨r, w1⟩
    rw [ho] at hnil
    cases r with
    | error e0 => simp at hnil
    | ok f =>
      refine ⟨f, w1, rfl, ?_⟩
      cases ht : (os.Truncate f sz w1).1 <;>
        cases hc : (os.Close f (os.Truncate f sz w1).2).1 <;> simp [ht, hc] at hnil ⊢

/-- C11 on a run where the open succeeds and both `Truncate` and `Close` fail:
the `Truncate` fault is returned, the file is closed once, and the `Close` fault
is logged as shadowed. -/
theorem CreateFile_fault_priority_witness :
    CreateFile (scriptedOS (fun _ => Except.ok ()) (some (errorsNew "truncate failed"))
        (fun _ => some (errorsNew "close failed")) (0, none)) "f" 100
        { world := [], log := [] }
      = (Except.ok (some (errorsNew "truncate failed")),
          { world := ["open f", "truncate", "close"],
            log := [LogEntry.Println [Any.str "Error be shadowed during cleanup:",
              Any.error (errorsNew "close failed"), Any.str "For:",
              Any.error (errorsNew "truncate failed")]] }) := by
  have h := (CreateFile_fault_priority (scriptedOS (fun _ => Except.ok ())
    (some (errorsNew "truncate failed")) (fun _ => some (errorsNew "close failed")) (0, none))
    "f" 100 { world := [], log := [] }).2.1 0 ["open f"] rfl
  have h1 := (h.2.1 (errorsNew "truncate failed") rfl).1
  have h2 := (h.2.1 (errorsNew "truncate failed") rfl).2.1 (errorsNew "close failed") rfl
  have h0 := h.1
  rcases hr : CreateFile (scriptedOS (fun _ => Except.ok ()) (some (errorsNew "truncate failed"))
        (fun _ => some (errorsNew "close failed")) (0, none)) "f" 100
        { world := [], log := [] } with ⟨r, ⟨w, l⟩⟩
  rw [hr] at h0 h1 h2
  simp only at h0 h1 h2
  rw [h0, h1, h2]
  rfl

/-- C14 fails as stated: when open, create and copy succeed and every `Close`
fails, `CopyFile` and `CopyFileN` return a nil error; when the copy fails and
every `Close` fails, the copy fault is returned; in both runs each handle is
closed once and nothing is logged, so the `Close` faults are discarded. -/
theorem CopyFile_close_fault_discarded :
    CopyFile (scriptedOS (fun _ => Except.ok ()) none
        (fun _ => some (errorsNew "close failed")) (5, none)) "dst" "src"
        { world := [], log := [] }
      = ((5, none),
          { world := ["open src", "open dst", "copy", "close", "close"], log := [] })
    ∧ CopyFileN (scriptedOS (fun _ => Except.ok ()) none
        (fun _ => some (errorsNew "close failed")) (5, none)) "dst" "src" 5
        { world := [], log := [] }
      = ((5, none),
          { world := ["open src", "open dst", "copy", "close", "close"], log := [] })
    ∧ CopyFile (scriptedOS (fun _ => Except.ok ()) none
        (fun _ => some (errorsNew "close failed")) (3, some (errorsNew "copy failed")))
        "dst" "src" { world := [], log := [] }
      = ((3, some (errorsNew "copy failed")),
          { world := ["open src", "open dst", "copy", "close", "close"], log := [] }) :=
  ⟨rfl, rfl, rfl⟩

/-- C14, amended: `CopyFile` and `CopyFileN` return the first fault among
opening `src`, creating `dst` and copying; every handle that was opened is
closed once on every exit path, `dst` before `src`; what the `Close` calls
return reaches neither the result nor the log. -/
theorem CopyFile_first_fault {W H : Type} (os : OS W H) (dst src : String) (n : Int)
    (s : Proc W) :
    (∀ e w1, osOpen os src s.world = (Except.error e, w1) →
        CopyFile os dst src s = ((0, some e), { s with world := w1 })
        ∧ CopyFileN os dst src n s = ((0, some e), { s with world := w1 }))
      ∧ (∀ fin w1 e w2, osOpen os src s.world = (Except.ok fin, w1) →
        osCreate os dst w1 = (Except.error e, w2) →
        CopyFile os dst src s = ((0, some e), { s with world := (os.Close fin w2).2 })
        ∧ CopyFileN os dst src n s = ((0, some e), { s with world := (os.Close fin w2).2 }))
      ∧ (∀ fin w1 fout w2, osOpen os src s.world = (Except.ok fin, w1) →
        osCreate os dst w1 = (Except.ok fout, w2) →
        CopyFile os dst src s
          = ((ioCopy os fout fin w2).1,
              { s with world := (os.Close fin (os.Close fout (ioCopy os fout fin w2).2).2).2 })
        ∧ CopyFileN os dst src n s
          = ((ioCopyN os fout fin n w2).1,
              { s with
                world := (os.Close fin (os.Close fout (ioCopyN os fout fin n w2).2).2).2 }))
      ∧ (CopyFile os dst src s).2.log = s.log
      ∧ (CopyFileN os dst src n s).2.log = s.log := by
  refine ⟨?_, ?_, ?_, ?_, ?_⟩
  · intro e w1 h
    simp [CopyFile, CopyFileN, h]
  · intro fin w1 e w2 h1 h2
    simp [CopyFile, CopyFileN, h1, h2]
  · intro fin w1 fout w2 h1 h2
    simp [CopyFile, CopyFileN, h1, h2]
  · unfold CopyFile
    rcases h1 : osOpen os src s.world with ⟨r1, w1⟩
    cases r1 with
    | error e => rfl
    | ok fin =>
      rcases h2 : osCreate os dst w1 with ⟨r2, w2⟩
      cases r2 <;> simp [h2]
  · unfold CopyFileN
    rcases h1 : osOpen os src s.world with ⟨r1, w1⟩
    cases r1 with
    | error e => rfl
    | ok fin =>
      rcases h2 : osCreate os dst w1 with ⟨r2, w2⟩
      cases r2 <;> simp [h2]

/-- C14 amended, on a run where only the two `Close` calls fail: the result is
the nil error of the copy. -/
theorem CopyFile_first_fault_witness :
    CopyFile (scriptedOS (fun _ => Except.ok ()) none
        (fun _ => some (errorsNew "close failed")) (7, none)) "b" "a"
        { world := [], log := [] }
      = ((7, none), { world := ["open a", "open b", "copy", "close", "close"], log := [] }) :=
  ((CopyFile_first_fault (scriptedOS (fun _ => Except.ok ()) none
      (fun _ => some (errorsNew "close failed")) (7, none)) "b" "a" 7
      { world := [], log := [] }).2.2.1 0 ["open a"] 1 ["open a", "open b"] rfl rfl).1

/-! ### The helpers over the in-memory filesystem -/

theorem writeAt_empty (data : List UInt8) : writeAt [] 0 data = data := by
  simp [writeAt, resize]

theorem memClose_nodes (h : Nat) (fs : MemFS) : (memClose h fs).2.nodes = fs.nodes := by
  unfold memClose
  cases fs.handles h with
  | none => rfl
  | some d =>
    by_cases hc : d.closed = true
    · simp [hc]
    · simp [hc, MemFS.setHandle]

theorem memCopy_fresh (dst src : String) (c : List UInt8) (limit : Option Int) (fs : MemFS)
    (hsrc : fs.nodes src = some (Node.file c)) (hne : dst ≠ src)
    (hdst : fs.nodes dst ≠ some Node.dir) :
    ∃ fin w1 fout w2,
      osOpen memOS src fs = (Except.ok fin, w1)
      ∧ osCreate memOS dst w1 = (Except.ok fout, w2)
      ∧ (memOS.Copy fout fin limit w2).1
          = (((match limit with
                | none => c
                | some n => c.take n.toNat).length : Int), none)
      ∧ (memOS.Close fin (memOS.Close fout (memOS.Copy fout fin limit w2).2).2).2.nodes
          = fun q => if q = dst then some (Node.file (match limit with
                | none => c
                | some n => c.take n.toNat)) else fs.nodes q := by
  have hne2 : src ≠ dst := fun h => hne h.symm
  have hopen : osOpen memOS src fs = (Except.ok fs.next,
      (fs.alloc { path := src, pos := 0, writable := false, closed := false }).2) := by
    simp [osOpen, memOS, memOpenFile, MemFS.alloc, MemFS.setHandle, hsrc]
  have hcreate : osCreate memOS dst
      (fs.alloc { path := src, pos := 0, writable := false, closed := false }).2
      = (Except.ok (fs.next + 1),
          (((fs.alloc { path := src, pos := 0, writable := false, closed := false }).2.setNode
            dst (Node.file [])).alloc
              { path := dst, pos := 0, writable := true, closed := false }).2) := by
    cases hd : fs.nodes dst with
    | none => simp [osCreate, memOS, memOpenFile, MemFS.alloc, MemFS.setHandle, MemFS.setNode, hd]
    | some node =>
      cases node with
      | dir => exact absurd hd hdst
      | file old => simp [osCreate, memOS, memOpenFile, MemFS.alloc, MemFS.setHandle, MemFS.setNode, hd]
  refine ⟨fs.next, (fs.alloc { path := src, pos := 0, writable := false, closed := false }).2,
    fs.next + 1,
    (((fs.alloc { path := src, pos := 0, writable := false, closed := false }).2.setNode
      dst (Node.file [])).alloc { path := dst, pos := 0, writable := true, closed := false }).2,
    ?_, ?_, ?_, ?_⟩
  · exact hopen
  · exact hcreate
  · cases limit with
    | none =>
      by_cases hc : c = []
      · simp [memOS, memCopy, MemFS.alloc, MemFS.setHandle, MemFS.setNode, hne2, hsrc, hc]
      · simp [memOS, memCopy, MemFS.alloc, MemFS.setHandle, MemFS.setNode, hne2, hsrc, hc]
    | some n =>
      by_cases hc : List.take n.toNat c = []
      · simp [memOS, memCopy, MemFS.alloc, MemFS.setHandle, MemFS.setNode, hne2, hsrc, hc]
      · simp [memOS, memCopy, MemFS.alloc, MemFS.setHandle, MemFS.setNode, hne2, hsrc, hc]
  · have hcl : ∀ h w, (memOS.Close h w).2.nodes = w.nodes := fun h w => memClose_nodes h w
    rw [hcl, hcl]
    funext q
    cases limit with
    | none =>
      by_cases hc : c = []
      · by_cases hq : q = dst
        · simp [memOS, memCopy, MemFS.alloc, MemFS.setHandle, MemFS.setNode, hne2, hsrc, hc, hq]
        · simp [memOS, memCopy, MemFS.alloc, MemFS.setHandle, MemFS.setNode, hne2, hsrc, hc, hq]
      · by_cases hq : q = dst
        · simp [memOS, memCopy, MemFS.alloc, MemFS.setHandle, MemFS.setNode, hne2, hsrc, hc, hq,
            writeAt_empty]
        · simp [memOS, memCopy, MemFS.alloc, MemFS.setHandle, MemFS.setNode, hne2, hsrc, hc, hq]
    | some n =>
      by_cases hc : List.take n.toNat c = []
      · by_cases hq : q = dst
        · simp [memOS, memCopy, MemFS.alloc, MemFS.setHandle, MemFS.setNode, hne2, hsrc, hc, hq]
        · simp [memOS, memCopy, MemFS.alloc, MemFS.setHandle, MemFS.setNode, hne2, hsrc, hc, hq]
      · by_cases hq : q = dst
        · simp [memOS, memCopy, MemFS.alloc, MemFS.setHandle, MemFS.setNode, hne2, hsrc, hc, hq,
            writeAt_empty]
        · simp [memOS, memCopy, MemFS.alloc, MemFS.setHandle, MemFS.setNode, hne2, hsrc, hc, hq]

theorem ioCopyN_world {W H : Type} (os : OS W H) (dst src : H) (n : Int) (w : W) :
    (ioCopyN os dst src n w).2 = (os.Copy dst src (some n) w).2 := by
  unfold ioCopyN
  simp only []
  split
  · rfl
  · split <;> rfl

theorem CopyFile_memOS_eval (dst src : String) (c : List UInt8) (s : Proc MemFS)
    (hsrc : s.world.nodes src = some (Node.file c)) (hne : dst ≠ src)
    (hdst : s.world.nodes dst ≠ some Node.dir) :
    (CopyFile memOS dst src s).1 = ((c.length : Int), none)
      ∧ (CopyFile memOS dst src s).2.world.nodes
          = (fun q => if q = dst then some (Node.file c) else s.world.nodes q)
      ∧ (CopyFile memOS dst src s).2.log = s.log := by
  obtain ⟨fin, w1, fout, w2, h1, h2, h3, h4⟩ := memCopy_fresh dst src c none s.world hsrc hne hdst
  unfold CopyFile
  rw [h1]
  simp only []
  rw [h2]
  exact ⟨h3, h4, rfl⟩

theorem ioCopyN_result {W H : Type} (os : OS W H) (dst src : H) (n k : Int) (w : W)
    (h : (os.Copy dst src (some n) w).1 = (k, none)) :
    (ioCopyN os dst src n w).1
      = (if k = n then (n, none) else if k < n then (k, some ioEOF) else (k, none)) := by
  unfold ioCopyN
  simp only [h]
  by_cases h1 : k = n
  · simp [h1]
  · by_cases h2 : k < n
    · simp [h1, h2]
    · simp [h1, h2, h]

theorem CopyFileN_memOS_eval (dst src : String) (c : List UInt8) (n : Int) (s : Proc MemFS)
    (hsrc : s.world.nodes src = some (Node.file c)) (hne : dst ≠ src)
    (hdst : s.world.nodes dst ≠ some Node.dir) :
    (CopyFileN memOS dst src n s).1
        = (if ((c.take n.toNat).length : Int) = n then (n, none)
           else if ((c.take n.toNat).length : Int) < n then
             (((c.take n.toNat).length : Int), some ioEOF)
           else (((c.take n.toNat).length : Int), none))
      ∧ (CopyFileN memOS dst src n s).2.world.nodes
          = (fun q => if q = dst then some (Node.file (c.take n.toNat)) else s.world.nodes q)
      ∧ (CopyFileN memOS dst src n s).2.log = s.log := by
  obtain ⟨fin, w1, fout, w2, h1, h2, h3, h4⟩ :=
    memCopy_fresh dst src c (some n) s.world hsrc hne hdst
  have h5 := ioCopyN_result memOS fout fin n _ w2 h3
  unfold CopyFileN
  rw [h1]
  simp only []
  rw [h2]
  simp only [ioCopyN_world]
  exact ⟨h5, h4, trivial⟩

/-- C13: over the in-memory filesystem, for a file `src` with content `c` and a
different path `dst` that names a file or nothing, `CopyFile(dst, src)` returns
`(len(c), nil)` and leaves `dst` with content `c` and every other path,
`src` included, as it was; for `0 ≤ n ≤ len(c)`, `CopyFileN(dst, src, n)` returns
`(n, nil)` and leaves `dst` with the first `n` bytes of `c`. -/
theorem CopyFile_copies_content (dst src : String) (c : List UInt8) (n : Int)
    (s : Proc MemFS) (hsrc : s.world.nodes src = some (Node.file c)) (hne : dst ≠ src)
    (hdst : s.world.nodes dst ≠ some Node.dir) :
    (CopyFile memOS dst src s).1 = ((c.length : Int), none)
      ∧ (CopyFile memOS dst src s).2.world.nodes dst = some (Node.file c)
      ∧ (CopyFile memOS dst src s).2.world.nodes src = some (Node.file c)
      ∧ (∀ q, q ≠ dst → (CopyFile memOS dst src s).2.world.nodes q = s.world.nodes q)
      ∧ (0 ≤ n → n ≤ c.length →
          (CopyFileN memOS dst src n s).1 = (n, none)
          ∧ (CopyFileN memOS dst src n s).2.world.nodes dst = some (Node.file (c.take n.toNat))
          ∧ (CopyFileN memOS dst src n s).2.world.nodes src = some (Node.file c)
          ∧ (∀ q, q ≠ dst →
              (CopyFileN memOS dst src n s).2.world.nodes q = s.world.nodes q)) := by
  have hne2 : src ≠ dst := fun h => hne h.symm
  obtain ⟨e1, e2, _⟩ := CopyFile_memOS_eval dst src c s hsrc hne hdst
  obtain ⟨f1, f2, _⟩ := CopyFileN_memOS_eval dst src c n s hsrc hne hdst
  refine ⟨e1, by simp [e2], by simp [e2, hne2, hsrc], fun q hq => by simp [e2, hq], ?_⟩
  intro h0 hn
  have hlen : ((c.take n.toNat).length : Int) = n := by
    rw [List.length_take]
    omega
  refine ⟨by rw [f1, if_pos hlen], by simp [f2], by simp [f2, hne2, hsrc],
    fun q hq => by simp [f2, hq]⟩

/-- C13 on a 500-byte source: the copy has the same 500 bytes, and `n = 200`
gives its first 200 bytes. -/
theorem CopyFile_copies_content_witness :
    (CopyFile memOS "dst" "src"
        { world := fsWith "src" (List.replicate 500 7) "dst" none, log := [] }).1 = (500, none)
      ∧ (CopyFile memOS "dst" "src"
        { world := fsWith "src" (List.replicate 500 7) "dst" none, log := [] }).2.world.nodes "dst"
          = some (Node.file (List.replicate 500 7))
      ∧ (CopyFileN memOS "dst" "src" 200
        { world := fsWith "src" (List.replicate 500 7) "dst" none, log := [] }).1 = (200, none)
      ∧ (CopyFileN memOS "dst" "src" 200
        { world := fsWith "src" (List.replicate 500 7) "dst" none, log := [] }).2.world.nodes "dst"
          = some (Node.file (List.replicate 200 7)) := by
  have hlen : (List.replicate 500 (7 : UInt8)).length = 500 := List.length_replicate 500 7
  have h := CopyFile_copies_content "dst" "src" (List.replicate 500 7) 200
    { world := fsWith "src" (List.replicate 500 7) "dst" none, log := [] }
    rfl (by decide) (fun h => nomatch h)
  have h2 := h.2.2.2.2 (by decide) (by rw [hlen]; decide)
  have ht : List.take (200 : Int).toNat (List.replicate 500 (7 : UInt8)) = List.replicate 200 7 := by
    rw [List.take_replicate]
    rfl
  have h1 := h.1
  have h3 := h2.2.1
  rw [hlen] at h1
  rw [ht] at h3
  exact ⟨h1, h.2.1, h2.1, h3⟩

/-- C18 fails as stated: the claim puts no condition on `dst`. With `dst` the
same path as a 3-byte `src` and `n = 9`, `os.Create` empties the file before the
copy, so `CopyFileN` returns `(0, io.EOF)` and the file is left empty; with `dst`
a directory the create fails and `CopyFileN` returns that error. -/
theorem CopyFileN_same_path_empties :
    (CopyFileN memOS "src" "src" 9
        { world := fsWith "src" [1, 2, 3] "dst" none, log := [] }).1 = (0, some ioEOF)
      ∧ (CopyFileN memOS "src" "src" 9
        { world := fsWith "src" [1, 2, 3] "dst" none, log := [] }).1
          ≠ ((([1, 2, 3] : List UInt8).length : Int), some ioEOF)
      ∧ (CopyFileN memOS "src" "src" 9
        { world := fsWith "src" [1, 2, 3] "dst" none, log := [] }).2.world.nodes "src"
          = some (Node.file [])
      ∧ (CopyFileN memOS "dir" "src" 9
        { world := fsWith "src" [1, 2, 3] "dir" (some Node.dir), log := [] }).1
          = (0, some (GoError.pathError "open" "dir" EISDIR)) := by
  decide

/-- C18, amended: over the in-memory filesystem, for a file `src` with content `c`
and a different path `dst` that names a file or nothing, `CopyFileN(dst, src, n)` with
`n > len(c)` returns `(len(c), io.EOF)` although `dst` then holds all of `c`; and
for every `n ≥ 0` the returned error is nil exactly when the returned count is
`n`. -/
theorem CopyFileN_short_source_EOF (dst src : String) (c : List UInt8) (n : Int)
    (s : Proc MemFS) (hsrc : s.world.nodes src = some (Node.file c)) (hne : dst ≠ src)
    (hdst : s.world.nodes dst ≠ some Node.dir) :
    ((c.length : Int) < n →
        (CopyFileN memOS dst src n s).1 = ((c.length : Int), some ioEOF)
        ∧ (CopyFileN memOS dst src n s).2.world.nodes dst = some (Node.file c))
      ∧ (0 ≤ n →
          ((CopyFileN memOS dst src n s).1.2 = none ↔ (CopyFileN memOS dst src n s).1.1 = n)) := by
  obtain ⟨f1, f2, _⟩ := CopyFileN_memOS_eval dst src c n s hsrc hne hdst
  constructor
  · intro hlt
    have htake : c.take n.toNat = c := List.take_of_length_le (by omega)
    rw [f1, f2, htake]
    have h1 : ¬ ((c.length : Int) = n) := by omega
    rw [if_neg h1, if_pos hlt]
    simp
  · intro h0
    rw [f1]
    have hle : ((c.take n.toNat).length : Int) ≤ n := by
      rw [List.length_take]
      omega
    by_cases h1 : ((c.take n.toNat).length : Int) = n
    · rw [if_pos h1]
      simp
    · have h2 : ((c.take n.toNat).length : Int) < n := by omega
      rw [if_neg h1, if_pos h2]
      constructor
      · intro h
        cases h
      · intro h
        exact absurd h h1

/-- C18 amended, on a 3-byte source and `n = 9`: the result is `(3, io.EOF)` and `dst`
holds the 3 bytes. -/
theorem CopyFileN_short_source_EOF_witness :
    (CopyFileN memOS "dst" "src" 9
        { world := fsWith "src" [1, 2, 3] "dst" none, log := [] }).1 = (3, some ioEOF)
      ∧ (CopyFileN memOS "dst" "src" 9
        { world := fsWith "src" [1, 2, 3] "dst" none, log := [] }).2.world.nodes "dst"
          = some (Node.file [1, 2, 3]) :=
  (CopyFileN_short_source_EOF "dst" "src" [1, 2, 3] 9
    { world := fsWith "src" [1, 2, 3] "dst" none, log := [] }
    rfl (by decide) (fun h => nomatch h)).1 (by decide)

theorem CreateFile_memOS_fresh (p : String) (sz : Int) (s : Proc MemFS)
    (hp : s.world.nodes p = none) (hsz : 0 ≤ sz) :
    (CreateFile memOS p sz s).1 = Except.ok none
      ∧ (CreateFile memOS p sz s).2.world.nodes
          = (fun q => if q = p then some (Node.file (List.replicate sz.toNat 0))
              else s.world.nodes q)
      ∧ (CreateFile memOS p sz s).2.log = s.log := by
  have hsz2 : ¬ sz < 0 := by omega
  refine ⟨?_, ?_, ?_⟩
  · simp [CreateFile, CleanUp, closeErrable, memOS, memOpenFile, memTruncate, memClose,
      MemFS.alloc, MemFS.setHandle, MemFS.setNode, hp, hsz2]
  · funext q
    by_cases hq : q = p
    · simp [CreateFile, CleanUp, closeErrable, memOS, memOpenFile, memTruncate, memClose,
        MemFS.alloc, MemFS.setHandle, MemFS.setNode, hp, hsz2, hq, resize]
    · simp [CreateFile, CleanUp, closeErrable, memOS, memOpenFile, memTruncate, memClose,
        MemFS.alloc, MemFS.setHandle, MemFS.setNode, hp, hsz2, hq, resize]
  · simp [CreateFile, CleanUp, closeErrable, memOS, memOpenFile, memTruncate, memClose,
      MemFS.alloc, MemFS.setHandle, MemFS.setNode, hp, hsz2]

/-- C12: over the in-memory filesystem, `CreateFile(p, sz)` at a path where
nothing exists and with `sz ≥ 0` returns nil and leaves at `p` a file of exactly
`sz` zero bytes (`FileSize(p)` is `sz`), other paths being untouched; at a path
where a file or directory exists it returns the "file exists" error of the
exclusive open and leaves the filesystem and the log as they were. -/
theorem CreateFile_sized_or_exists (p : String) (sz : Int) (s : Proc MemFS) :
    (s.world.nodes p = none → 0 ≤ sz →
        (CreateFile memOS p sz s).1 = Except.ok none
        ∧ (CreateFile memOS p sz s).2.world.nodes p
            = some (Node.file (List.replicate sz.toNat 0))
        ∧ FileSize memOS p (CreateFile memOS p sz s).2.world = (sz, none)
        ∧ (∀ q, q ≠ p → (CreateFile memOS p sz s).2.world.nodes q = s.world.nodes q))
      ∧ (∀ node, s.world.nodes p = some node →
          CreateFile memOS p sz s = (Except.ok (some (GoError.pathError "open" p EEXIST)), s)
          ∧ IsExist (some (GoError.pathError "open" p EEXIST)) = true) := by
  constructor
  · intro hp hsz
    obtain ⟨h1, h2, _⟩ := CreateFile_memOS_fresh p sz s hp hsz
    have hnode : (CreateFile memOS p sz s).2.world.nodes p
        = some (Node.file (List.replicate sz.toNat 0)) := by simp [h2]
    have hst : memOS.Stat p (CreateFile memOS p sz s).2.world
        = Except.ok { Size := sz, IsDir := false } := by
      show memStat p _ = _
      unfold memStat
      rw [hnode]
      simp [Int.toNat_of_nonneg hsz]
    refine ⟨h1, hnode, ?_, fun q hq => by simp [h2, hq]⟩
    unfold FileSize
    rw [hst]
  · intro node hnode
    refine ⟨?_, by simp [IsExist]⟩
    cases node <;> simp [CreateFile, memOS, memOpenFile, hnode]

/-- C12 at `CreateFile(p, 100)` on a filesystem where `p` names nothing: the size
of `p` is then 100, and a second `CreateFile(p, 100)` fails with "file exists". -/
theorem CreateFile_sized_or_exists_witness :
    FileSize memOS "p" (CreateFile memOS "p" 100
        { world := fsWith "other" [] "p" none, log := [] }).2.world = (100, none)
      ∧ (CreateFile memOS "p" 100 (CreateFile memOS "p" 100
          { world := fsWith "other" [] "p" none, log := [] }).2).1
        = Except.ok (some (GoError.pathError "open" "p" EEXIST)) := by
  have h := (CreateFile_sized_or_exists "p" 100
    { world := fsWith "other" [] "p" none, log := [] }).1 rfl (by decide)
  have h2 := (CreateFile_sized_or_exists "p" 100 (CreateFile memOS "p" 100
    { world := fsWith "other" [] "p" none, log := [] }).2).2 _ h.2.1
  exact ⟨h.2.2.1, by rw [h2.1]⟩

/-! ### IndexedReadCloser.Read, MakePath, recovery round trip -/

/-- C15 fails as stated: with `Idx` at the largest `int64` and an underlying read
that returns `n = 1`, `Read` leaves `Idx` at the smallest `int64`, which is
neither `Idx + 1` nor an increase. -/
theorem IndexedReadCloser_Read_wraps :
    (IndexedReadCloser.Read scriptedRead
        ({ R := [(1, none)], C := (), Idx := 9223372036854775807, Len := 0 } :
          IndexedReadCloser (List (Int × error)) Unit) 8).1 = (1, none)
      ∧ (IndexedReadCloser.Read scriptedRead
        ({ R := [(1, none)], C := (), Idx := 9223372036854775807, Len := 0 } :
          IndexedReadCloser (List (Int × error)) Unit) 8).2.Idx = -9223372036854775808
      ∧ (IndexedReadCloser.Read scriptedRead
        ({ R := [(1, none)], C := (), Idx := 9223372036854775807, Len := 0 } :
          IndexedReadCloser (List (Int × error)) Unit) 8).2.Idx ≠ 9223372036854775807 + 1
      ∧ (IndexedReadCloser.Read scriptedRead
        ({ R := [(1, none)], C := (), Idx := 9223372036854775807, Len := 0 } :
          IndexedReadCloser (List (Int × error)) Unit) 8).2.Idx < 9223372036854775807 := by
  decide

/-- C15, amended: for a wrapper whose `Idx` is an `int64` and an underlying read
result `(n, err)` with `n ≥ 0` and `Idx + n` not above the largest `int64`, `Read`
returns `(n, err)` unchanged, sets `Idx` to `Idx + n` (so `Idx` does not decrease),
leaves `Len` and `C` as they were, and leaves in `R` the underlying reader as its
own read left it. -/
theorem IndexedReadCloser_Read_frame {ρ κ : Type} (rd : ReaderRead ρ)
    (r : IndexedReadCloser ρ κ) (buf : Nat)
    (hn : 0 ≤ (rd r.R buf).1.1) (hidx : -9223372036854775808 ≤ r.Idx)
    (hsum : r.Idx + (rd r.R buf).1.1 ≤ 9223372036854775807) :
    (IndexedReadCloser.Read rd r buf).1 = (rd r.R buf).1
      ∧ (IndexedReadCloser.Read rd r buf).2.Idx = r.Idx + (rd r.R buf).1.1
      ∧ r.Idx ≤ (IndexedReadCloser.Read rd r buf).2.Idx
      ∧ (IndexedReadCloser.Read rd r buf).2.Len = r.Len
      ∧ (IndexedReadCloser.Read rd r buf).2.C = r.C
      ∧ (IndexedReadCloser.Read rd r buf).2.R = (rd r.R buf).2 := by
  have hidx2 : (IndexedReadCloser.Read rd r buf).2.Idx = r.Idx + (rd r.R buf).1.1 := by
    show wrapInt64 (r.Idx + wrapInt64 (rd r.R buf).1.1) = _
    unfold wrapInt64
    omega
  refine ⟨rfl, hidx2, ?_, rfl, rfl, rfl⟩
  rw [hidx2]
  omega

/-- C15 amended, on a read of 3 bytes that also reports an error, from `Idx = 4`. -/
theorem IndexedReadCloser_Read_frame_witness :
    (IndexedReadCloser.Read scriptedRead
        ({ R := [(3, some (errorsNew "short"))], C := (), Idx := 4, Len := 5 } :
          IndexedReadCloser (List (Int × error)) Unit) 8).1 = (3, some (errorsNew "short"))
      ∧ (IndexedReadCloser.Read scriptedRead
        ({ R := [(3, some (errorsNew "short"))], C := (), Idx := 4, Len := 5 } :
          IndexedReadCloser (List (Int × error)) Unit) 8).2.Idx = 4 + 3 := by
  have h := IndexedReadCloser_Read_frame scriptedRead
    ({ R := [(3, some (errorsNew "short"))], C := (), Idx := 4, Len := 5 } :
      IndexedReadCloser (List (Int × error)) Unit) 8 (by decide) (by decide) (by decide)
  exact ⟨h.1, h.2.1⟩

/-- C16: on every platform, `MakePath(wd, p)` is `p` itself when `p` is
absolute and `filepath.Join(wd, p)` otherwise. -/
theorem MakePath_abs_or_join (fp : Filepath) (wd p : String) :
    (fp.IsAbs p = true → MakePath fp wd p = p)
      ∧ (fp.IsAbs p = false → MakePath fp wd p = fp.Join [wd, p]) := by
  constructor
  · intro h
    simp [MakePath, h]
  · intro h
    simp [MakePath, h]

/-- C16 on Unix: an absolute path comes back byte for byte, uncleaned, and a
relative one is joined to the working directory. -/
theorem MakePath_abs_or_join_witness :
    MakePath unixFilepath "/wd" "/a/../b//c" = "/a/../b//c"
      ∧ MakePath unixFilepath "/wd" "a/../b//c" = unixJoin ["/wd", "a/../b//c"]
      ∧ unixJoin ["/wd", "a/../b//c"] = "/wd/b/c" :=
  ⟨(MakePath_abs_or_join unixFilepath "/wd" "/a/../b//c").1 (by decide),
   (MakePath_abs_or_join unixFilepath "/wd" "a/../b//c").2 (by decide),
   by decide⟩

/-- C17 fails as stated: with the slot holding one fault and `PE` escalating a
different fault of the same uncomparable dynamic type, the deferred
`PanicCatcher` panics at `*err != e`, so the function does not end normally. -/
theorem PE_PanicCatcher_uncomparable_panics :
    GoError.uncomparable "main.MultiErr" "a" ≠ GoError.uncomparable "main.MultiErr" "b"
      ∧ (deferPanicCatcher "goroutine 1" false
          (fun t => PE (some (GoError.uncomparable "main.MultiErr" "b")) t)
          (some (GoError.uncomparable "main.MultiErr" "a"))
          ({ world := (), log := [] } : Proc Unit)).1
        = Except.error (Any.error
            (GoError.runtimeError "comparing uncomparable type main.MultiErr"))
      ∧ (deferPanicCatcher "goroutine 1" false
          (fun t => PE (some (GoError.uncomparable "main.MultiErr" "b")) t)
          (some (GoError.uncomparable "main.MultiErr" "a"))
          ({ world := (), log := [] } : Proc Unit)).1 ≠ Except.ok () := by
  refine ⟨by decide, rfl, ?_⟩
  intro h
  cases h

/-- C17, amended: a function that defers `PanicCatcher(&slot)` and whose body,
after steps `pre` that return normally, calls `PE(e)` with a non-nil `e` ends
normally with the slot holding `e` when the slot was nil; when the slot held a
fault `p`, it ends normally with the slot still holding `p` whenever the
comparison `*err != e` is defined, which is so for every `p` other than `e` that
does not share an uncomparable dynamic type with `e`. -/
theorem PE_PanicCatcher_round_trip {W : Type} (stack : String) (same : Bool) (e : GoError)
    (pre : Proc W → Proc W) (s : Proc W) :
    ((deferPanicCatcher stack same (fun t => PE (some e) (pre t)) none s).1 = Except.ok ()
        ∧ (deferPanicCatcher stack same (fun t => PE (some e) (pre t)) none s).2.1 = some e)
      ∧ (∀ p b, ifaceNe same p e = Except.ok b →
          (deferPanicCatcher stack same (fun t => PE (some e) (pre t)) (some p) s).1
            = Except.ok ()
          ∧ (deferPanicCatcher stack same (fun t => PE (some e) (pre t)) (some p) s).2.1
            = some p)
      ∧ (∀ p, p ≠ e → (p.dynType ≠ e.dynType ∨ p.kind ≠ TypeKind.uncomparable) →
          (deferPanicCatcher stack same (fun t => PE (some e) (pre t)) (some p) s).1
            = Except.ok ()
          ∧ (deferPanicCatcher stack same (fun t => PE (some e) (pre t)) (some p) s).2.1
            = some p) := by
  have key : ∀ p b, ifaceNe same p e = Except.ok b →
      (deferPanicCatcher stack same (fun t => PE (some e) (pre t)) (some p) s).1
        = Except.ok ()
      ∧ (deferPanicCatcher stack same (fun t => PE (some e) (pre t)) (some p) s).2.1
        = some p := by
    intro p b h
    cases b <;> simp [deferPanicCatcher, PE, PanicCatcher, errorNe, h]
  refine ⟨?_, key, ?_⟩
  · simp [deferPanicCatcher, PE, PanicCatcher, errorNe]
  · intro p hne hk
    exact key p true (ifaceNe_of_ne same p e hne hk)

/-- C17 amended, on a slot that already holds a different fault. -/
theorem PE_PanicCatcher_round_trip_witness :
    (deferPanicCatcher "goroutine 1" false (fun t => PE (some (errorsNew "boom")) t)
        (some (errorsNew "prior")) ({ world := (), log := [] } : Proc Unit)).1 = Except.ok ()
      ∧ (deferPanicCatcher "goroutine 1" false (fun t => PE (some (errorsNew "boom")) t)
        (some (errorsNew "prior")) ({ world := (), log := [] } : Proc Unit)).2.1
          = some (errorsNew "prior") :=
  (PE_PanicCatcher_round_trip "goroutine 1" false (errorsNew "boom") (fun t => t)
    ({ world := (), log := [] } : Proc Unit)).2.2 (errorsNew "prior") (by decide)
    (Or.inr (by decide))

/-- C19: whenever `DatestrToInt(s)` returns a non-nil error, the timestamp it
returns is -62135596800, the Unix time of the zero `time.Time`, and not 0. -/
theorem DatestrToInt_error_timestamp (s : String) (h : (DatestrToInt s).2 ≠ none) :
    (DatestrToInt s).1 = -62135596800 ∧ (DatestrToInt s).1 ≠ 0 := by
  have hz : zeroTime.Unix = -62135596800 := by decide
  have key : (DatestrToInt s).1 = -62135596800 := by
    unfold DatestrToInt DatestrToTime at h ⊢
    simp only [] at h ⊢
    split
    · exact hz
    · rename_i h3
      rw [if_neg h3] at h
      split
      · exact hz
      · rename_i herr
        rw [if_neg herr] at h
        exact absurd h herr
  exact ⟨key, by rw [key]; decide⟩

/-- C19 at "1/2/abc", where the third segment is not a number. -/
theorem DatestrToInt_error_timestamp_witness :
    (DatestrToInt "1/2/abc").1 = -62135596800 :=
  (DatestrToInt_error_timestamp "1/2/abc" (by decide)).1

/-! ### Zero-terminated byte slices -/

theorem IndexByte_eq (c : UInt8) (b : List UInt8) :
    IndexByte b c
      = if c ∈ b then ((b.takeWhile (fun x => x != c)).length : Int) else -1 := by
  induction b with
  | nil => simp [IndexByte]
  | cons x xs ih =>
    unfold IndexByte
    by_cases hx : x = c
    · subst hx
      simp
    · have hx2 : ¬ c = x := fun h => hx h.symm
      simp only [if_neg hx, ih, List.mem_cons, hx2, false_or]
      by_cases hm : c ∈ xs
      · have hne : (x != c) = true := by simpa using hx
        simp only [if_pos hm, List.takeWhile_cons, hne, if_true, List.length_cons]
        have : (0 : Int) ≤ ((xs.takeWhile (fun x => x != c)).length : Int) := by omega
        rw [if_pos this]
        push_cast
        rfl
      · simp [if_neg hm]

theorem StrFromSzslice_eq_takeWhile (b : List UInt8) :
    StrFromSzslice b = b.takeWhile (fun x => x != 0) := by
  unfold StrFromSzslice
  simp only [IndexByte_eq]
  by_cases hm : (0 : UInt8) ∈ b
  · have hnn : (0 : Int) ≤ ((b.takeWhile (fun x => x != 0)).length : Int) := by omega
    simp only [if_pos hm, ge_iff_le, hnn, if_true, Int.toNat_ofNat]
    have hp : b.takeWhile (fun x => x != 0) <+: b := List.takeWhile_prefix _
    exact (List.prefix_iff_eq_take.1 hp).symm
  · simp only [if_neg hm]
    have : ¬ ((-1 : Int) ≥ 0) := by decide
    rw [if_neg this]
    symm
    rw [List.takeWhile_eq_self_iff]
    intro x hx
    have : x ≠ 0 := fun h => hm (h ▸ hx)
    simpa using this

theorem takeWhile_nonzero_eq_take (b : List UInt8) :
    ∀ i : Nat, b[i]? = some 0 → (∀ j, j < i → b[j]? ≠ some 0) →
      b.takeWhile (fun x => x != 0) = b.take i := by
  induction b with
  | nil => intro i h _; simp at h
  | cons x xs ih =>
    intro i h hmin
    cases i with
    | zero =>
      have hx : x = 0 := by simpa using h
      subst hx
      simp
    | succ k =>
      have hx : x ≠ 0 := by
        intro hx0
        exact hmin 0 (Nat.succ_pos k) (by simp [hx0])
      have hne : (x != 0) = true := by simpa using hx
      have h2 : xs[k]? = some 0 := by simpa using h
      have h3 : ∀ j, j < k → xs[j]? ≠ some 0 := by
        intro j hj
        have := hmin (j + 1) (by omega)
        simpa using this
      simp only [List.takeWhile_cons, hne, if_true, List.take_succ_cons]
      rw [ih k h2 h3]

theorem prefix_nonzero_le_takeWhile (b : List UInt8) :
    ∀ p : List UInt8, p <+: b → (0 : UInt8) ∉ p →
      p.length ≤ (b.takeWhile (fun x => x != 0)).length := by
  induction b with
  | nil =>
    intro p hp _
    have : p = [] := List.prefix_nil.1 hp
    simp [this]
  | cons x xs ih =>
    intro p hp h0
    cases p with
    | nil => simp
    | cons y ys =>
      have hcons := List.cons_prefix_cons.1 hp
      have hy : y ≠ 0 := fun h => h0 (by simp [h])
      have hx : x ≠ 0 := hcons.1 ▸ hy
      have hne : (x != 0) = true := by simpa using hx
      have h0ys : (0 : UInt8) ∉ ys := fun h => h0 (List.mem_cons_of_mem _ h)
      have := ih ys hcons.2 h0ys
      simp only [List.takeWhile_cons, hne, if_true, List.length_cons]
      omega

/-- C20: `StrFromSzslice(b)` is the longest prefix of `b` without a zero byte:
it is `b[0:i]` for the least index `i` with `b[i] == 0`, all of `b` when `b` has no
zero byte; it is a prefix of `b` that contains no zero byte, no zero-free prefix
of `b` is longer, its length is at most `len(b)`, and applying the function to
its own output changes nothing. -/
theorem StrFromSzslice_longest_zero_free (b : List UInt8) :
    (∀ i : Nat, b[i]? = some 0 → (∀ j, j < i → b[j]? ≠ some 0) →
        StrFromSzslice b = b.take i)
      ∧ ((0 : UInt8) ∉ b → StrFromSzslice b = b)
      ∧ StrFromSzslice b <+: b
      ∧ (0 : UInt8) ∉ StrFromSzslice b
      ∧ (∀ p : List UInt8, p <+: b → (0 : UInt8) ∉ p →
          p.length ≤ (StrFromSzslice b).length)
      ∧ (StrFromSzslice b).length ≤ b.length
      ∧ StrFromSzslice (StrFromSzslice b) = StrFromSzslice b := by
  have hpre : b.takeWhile (fun x => x != 0) <+: b := List.takeWhile_prefix _
  have hno : (0 : UInt8) ∉ b.takeWhile (fun x => x != 0) := by
    intro h
    have := List.mem_takeWhile_imp h
    simp at this
  refine ⟨?_, ?_, ?_, ?_, ?_, ?_, ?_⟩
  · intro i h hmin
    rw [StrFromSzslice_eq_takeWhile]
    exact takeWhile_nonzero_eq_take b i h hmin
  · intro h
    rw [StrFromSzslice_eq_takeWhile, List.takeWhile_eq_self_iff]
    intro x hx
    have : x ≠ 0 := fun e => h (e ▸ hx)
    simpa using this
  · rw [StrFromSzslice_eq_takeWhile]
    exact hpre
  · rw [StrFromSzslice_eq_takeWhile]
    exact hno
  · intro p hp h0
    rw [StrFromSzslice_eq_takeWhile]
    exact prefix_nonzero_le_takeWhile b p hp h0
  · rw [StrFromSzslice_eq_takeWhile]
    exact hpre.length_le
  · rw [StrFromSzslice_eq_takeWhile, StrFromSzslice_eq_takeWhile, List.takeWhile_eq_self_iff]
    intro x hx
    exact @List.mem_takeWhile_imp UInt8 (fun y => y != 0) b x hx

/-- C20 on the bytes of "hi" followed by a zero byte and more data. -/
theorem StrFromSzslice_longest_zero_free_witness :
    StrFromSzslice [104, 105, 0, 7, 0] = [104, 105] :=
  (StrFromSzslice_longest_zero_free [104, 105, 0, 7, 0]).1 2 (by decide) (by decide)

end Util
